import Mathlib

/-!
# Verification of the heroesprofile-filter downloader

A shallow embedding of `src/downloader.py`: the two-phase replay download
(`BattleTag.download_base_replays`, `BattleTag.download_advanced_replays`),
and the identity resolution (`BattleTags.setup_battle_tags_from_config`).

Modelling conventions:
* JSON values are the inductive `Json`; JSON objects are ordered association
  lists of string keys, matching Python dict insertion order and the fact
  that keys of a parsed JSON object are always strings.
* A cache file's content is modelled up to JSON value equality: `.empty` is
  a zero-byte file, `.badJson` a non-empty file that does not parse as JSON,
  `.json j` a file whose parse is `j`.  (`json.dump(..., indent=2)` is
  deterministic, so equal parsed values mean equal bytes.)
* The filesystem entry at a path is `.absent`, `.file c`, or `.nonfile`
  (a directory or other non-regular entry: `os.path.exists` true,
  `os.path.isfile` false).
* The network is an oracle from request parameter to `NetResult`; `.exn`
  is a transport-level or body-parse exception raised by `requests`,
  `.resp s b` a response with status code `s` and parsed JSON body `b`.
  For one identity the only parameter varying across listing calls is the
  `game_type` label, and across detail calls the `replayID`, so the oracles
  are keyed by those.
* An uncaught Python exception or `sys.exit` is a `Crash`; the run result
  carries the filesystem state at the moment of the crash, since files
  already (re)written or truncated stay on disk.
-/

/-- A JSON value.  Objects are ordered association lists with string keys. -/
inductive Json where
  | null
  | bool (b : Bool)
  | num (n : Int)
  | str (s : String)
  | arr (elems : List Json)
  | obj (fields : List (String × Json))

/-- An uncaught exception or explicit exit terminating the process. -/
inductive Crash where
  | assertFail   -- failed `assert` (AssertionError)
  | sysExit      -- `sys.exit(1)`
  | keyError     -- KeyError from a dict subscript
  | typeError    -- TypeError from an ill-typed operation
  | ioError      -- OSError family (IsADirectoryError, FileNotFoundError, ...)
  | jsonError    -- uncaught json.JSONDecodeError
  | netExn       -- uncaught exception out of `requests`
deriving DecidableEq

namespace Json

mutual

def decEq : (a b : Json) → Decidable (a = b)
  | .null, .null => isTrue rfl
  | .null, .bool _ => isFalse (fun h => nomatch h)
  | .null, .num _ => isFalse (fun h => nomatch h)
  | .null, .str _ => isFalse (fun h => nomatch h)
  | .null, .arr _ => isFalse (fun h => nomatch h)
  | .null, .obj _ => isFalse (fun h => nomatch h)
  | .bool _, .null => isFalse (fun h => nomatch h)
  | .bool x, .bool y =>
      if h : x = y then isTrue (by rw [h]) else isFalse (fun hh => h (by cases hh; rfl))
  | .bool _, .num _ => isFalse (fun h => nomatch h)
  | .bool _, .str _ => isFalse (fun h => nomatch h)
  | .bool _, .arr _ => isFalse (fun h => nomatch h)
  | .bool _, .obj _ => isFalse (fun h => nomatch h)
  | .num _, .null => isFalse (fun h => nomatch h)
  | .num _, .bool _ => isFalse (fun h => nomatch h)
  | .num x, .num y =>
      if h : x = y then isTrue (by rw [h]) else isFalse (fun hh => h (by cases hh; rfl))
  | .num _, .str _ => isFalse (fun h => nomatch h)
  | .num _, .arr _ => isFalse (fun h => nomatch h)
  | .num _, .obj _ => isFalse (fun h => nomatch h)
  | .str _, .null => isFalse (fun h => nomatch h)
  | .str _, .bool _ => isFalse (fun h => nomatch h)
  | .str _, .num _ => isFalse (fun h => nomatch h)
  | .str x, .str y =>
      if h : x = y then isTrue (by rw [h]) else isFalse (fun hh => h (by cases hh; rfl))
  | .str _, .arr _ => isFalse (fun h => nomatch h)
  | .str _, .obj _ => isFalse (fun h => nomatch h)
  | .arr _, .null => isFalse (fun h => nomatch h)
  | .arr _, .bool _ => isFalse (fun h => nomatch h)
  | .arr _, .num _ => isFalse (fun h => nomatch h)
  | .arr _, .str _ => isFalse (fun h => nomatch h)
  | .arr xs, .arr ys =>
      match decEqList xs ys with
      | isTrue h => isTrue (by rw [h])
      | isFalse h => isFalse (fun hh => h (by cases hh; rfl))
  | .arr _, .obj _ => isFalse (fun h => nomatch h)
  | .obj _, .null => isFalse (fun h => nomatch h)
  | .obj _, .bool _ => isFalse (fun h => nomatch h)
  | .obj _, .num _ => isFalse (fun h => nomatch h)
  | .obj _, .str _ => isFalse (fun h => nomatch h)
  | .obj _, .arr _ => isFalse (fun h => nomatch h)
  | .obj fs, .obj gs =>
      match decEqFields fs gs with
      | isTrue h => isTrue (by rw [h])
      | isFalse h => isFalse (fun hh => h (by cases hh; rfl))

def decEqList : (xs ys : List Json) → Decidable (xs = ys)
  | [], [] => isTrue rfl
  | [], _ :: _ => isFalse (fun h => nomatch h)
  | _ :: _, [] => isFalse (fun h => nomatch h)
  | x :: xs, y :: ys =>
      match decEq x y, decEqList xs ys with
      | isTrue h1, isTrue h2 => isTrue (by rw [h1, h2])
      | isFalse h1, _ => isFalse (fun h => h1 (by cases h; rfl))
      | _, isFalse h2 => isFalse (fun h => h2 (by cases h; rfl))

def decEqFields : (xs ys : List (String × Json)) → Decidable (xs = ys)
  | [], [] => isTrue rfl
  | [], _ :: _ => isFalse (fun h => nomatch h)
  | _ :: _, [] => isFalse (fun h => nomatch h)
  | (k1, v1) :: xs, (k2, v2) :: ys =>
      if hk : k1 = k2 then
        match decEq v1 v2, decEqFields xs ys with
        | isTrue h1, isTrue h2 => isTrue (by rw [hk, h1, h2])
        | isFalse h1, _ => isFalse (fun h => h1 (by cases h; rfl))
        | _, isFalse h2 => isFalse (fun h => h2 (by cases h; rfl))
      else isFalse (fun h => hk (by cases h; rfl))

end

instance : DecidableEq Json := Json.decEq

/-- First binding of key `k` in an object field list (Python dict lookup;
field lists written by this program never repeat a key). -/
def findField (fields : List (String × Json)) (k : String) : Option Json :=
  match fields with
  | [] => none
  | (k', v) :: rest => if k' = k then some v else findField rest k

/-- `d[k] = v` on a Python dict: replace in place if the key exists,
else append (insertion order preserved). -/
def setField (fields : List (String × Json)) (k : String) (v : Json) :
    List (String × Json) :=
  match fields with
  | [] => [(k, v)]
  | (k', v') :: rest =>
      if k' = k then (k', v) :: rest else (k', v') :: setField rest k v

/-- Python truthiness of a JSON-decoded value (`if not base_json:` at
downloader.py:107): `None`, `False`, `0`, `""`, `[]`, `{}` are falsy. -/
def falsy : Json → Bool
  | .null => true
  | .bool b => !b
  | .num n => n = 0
  | .str s => s = ""
  | .arr xs => xs.isEmpty
  | .obj fs => fs.isEmpty

/-- Whether a value can be a Python dict key (lists and dicts are unhashable). -/
def hashable : Json → Bool
  | .arr _ => false
  | .obj _ => false
  | _ => true

/-- `container[e]` on a JSON-decoded value.  A decoded object is a Python
dict with string keys, so a hashable non-string key raises KeyError and an
unhashable one TypeError.  Subscripting a decoded list by a string raises
TypeError; integer indexing into a list, and character indexing into a
string, are collapsed to TypeError here — no cache file or response body
this development reasons about is subscripted that way. -/
def subscript (container e : Json) : Except Crash Json :=
  match container with
  | .obj fs =>
      if hashable e then
        match e with
        | .str k =>
            match findField fs k with
            | some v => .ok v
            | none => .error .keyError
        | _ => .error .keyError
      else .error .typeError
  | _ => .error .typeError

end Json

/-- Content of a regular file, up to JSON parsing. -/
inductive FileContent where
  | empty
  | badJson
  | json (j : Json)
deriving DecidableEq

/-- What the filesystem holds at one path. -/
inductive FsEntry where
  | absent
  | file (c : FileContent)
  | nonfile
deriving DecidableEq

/-- Per-identity filesystem state: the `<username>/base/<game_type>` and
`<username>/advanced/<game_type>` cache files, keyed by game-type key. -/
structure FsState where
  base : List (String × FsEntry)
  adv : List (String × FsEntry)
deriving DecidableEq

namespace FsState

def lookupIn (m : List (String × FsEntry)) (k : String) : FsEntry :=
  match m with
  | [] => .absent
  | (k', e) :: rest => if k' = k then e else lookupIn rest k

def setIn (m : List (String × FsEntry)) (k : String) (e : FsEntry) :
    List (String × FsEntry) :=
  match m with
  | [] => [(k, e)]
  | (k', e') :: rest =>
      if k' = k then (k', e) :: rest else (k', e') :: setIn rest k e

def getBase (st : FsState) (gt : String) : FsEntry := lookupIn st.base gt
def getAdv (st : FsState) (gt : String) : FsEntry := lookupIn st.adv gt
def setBase (st : FsState) (gt : String) (e : FsEntry) : FsState :=
  { st with base := setIn st.base gt e }
def setAdv (st : FsState) (gt : String) (e : FsEntry) : FsState :=
  { st with adv := setIn st.adv gt e }

/-- Both cache files missing for every category: the state before any run. -/
def initial : FsState := ⟨[], []⟩

end FsState

/-- Result of one `requests.get` call. -/
inductive NetResult where
  | exn
  | resp (status : Nat) (body : Json)
deriving DecidableEq

/-- `GAME_TYPES` (downloader.py:28): key → display label, declaration order. -/
def GAME_TYPES : List (String × String) :=
  [("qm", "Quick Match"), ("sl", "Storm League"),
   ("ud", "Unranked Draft"), ("aram", "ARAM")]

/-- Accumulated observable effects of a run: filesystem state, the listing
requests issued (by `game_type` label, in order), the detail requests issued
(by `replayID`, in order), the per-category `replays_cnt` values reported,
and whether the process has crashed. -/
structure RunAcc where
  st : FsState
  listingReqs : List String
  detailReqs : List Json
  counts : List (String × Nat)
  crash : Option Crash
deriving DecidableEq

def RunAcc.start (st : FsState) : RunAcc := ⟨st, [], [], [], none⟩

/-! ## Phase 1 — `BattleTag.download_base_replays` (downloader.py:54-80) -/

/-- The `try: json.load / except ...: sys.exit(1)` block at
downloader.py:74-80, applied after the entry at `base_file` is known. -/
def baseParseCheck (acc : RunAcc) (e : FsEntry) : RunAcc :=
  match e with
  | .file (.json _) => acc
  | .file .empty => { acc with crash := some .sysExit }
  | .file .badJson => { acc with crash := some .sysExit }
  | .absent => { acc with crash := some .sysExit }  -- FileNotFoundError caught
  | .nonfile => { acc with crash := some .ioError } -- IsADirectoryError uncaught

/-- One iteration of the `for game_type in GAME_TYPES` loop of
`download_base_replays`, for game type `gt` with display label `label`. -/
def download_base_step (listing : String → NetResult) (acc : RunAcc)
    (gt label : String) : RunAcc :=
  if acc.crash.isSome then acc else
  let e := acc.st.getBase gt
  match e with
  | .file c =>
      -- `os.path.exists and os.path.isfile`: skip the download entirely
      baseParseCheck acc (.file c)
  | _ =>
      -- absent, or present but not a regular file: download
      let acc := { acc with listingReqs := acc.listingReqs ++ [label] }
      match listing label with
      | .exn => { acc with crash := some .netExn }
      | .resp status body =>
          if status = 200 then
            match e with
            | .nonfile =>
                -- `open(base_file, "w")` on a non-regular path raises
                { acc with crash := some .ioError }
            | _ =>
                let acc := { acc with st := acc.st.setBase gt (.file (.json body)) }
                baseParseCheck acc (.file (.json body))
          else
            -- `assert res.status_code == 200` fails: AssertionError
            { acc with crash := some .assertFail }

/-- `BattleTag.download_base_replays`: the loop over all four game types. -/
def download_base_replays (listing : String → NetResult) (acc : RunAcc) :
    RunAcc :=
  GAME_TYPES.foldl (fun a p => download_base_step listing a p.1 p.2) acc

example :
    (download_base_replays (fun _ => .resp 200 (.obj []))
      (RunAcc.start .initial)).listingReqs =
      ["Quick Match", "Storm League", "Unranked Draft", "ARAM"] := by decide

example :
    (download_base_replays (fun _ => .resp 404 (.obj []))
      (RunAcc.start .initial)).crash = some .assertFail := by decide

/-! ## Phase 2 — `BattleTag.download_advanced_replays` (downloader.py:82-135) -/

namespace Json

/-- The Python expression `x in c` on decoded values, as used at
downloader.py:113 (`replay_id in adv_json`), 182, 193 and 195.  For a dict,
an unhashable operand raises TypeError; otherwise membership is key lookup
(a decoded dict has string keys, so only a string can be present).  For a
list, membership is element equality.  On any other value `in` raises
TypeError (substring membership in a decoded string is not used by any
input this development reasons about). -/
def pyIn (c x : Json) : Except Crash Bool :=
  match c with
  | .obj fs =>
      if hashable x then
        match x with
        | .str k => .ok (findField fs k).isSome
        | _ => .ok false
      else .error .typeError
  | .arr xs => .ok (decide (x ∈ xs))
  | _ => .error .typeError

/-- `adv_json[replay_id] = v` (downloader.py:124).  At its only call site the
key is a string (extraction from a string-keyed decoded body succeeded), so a
non-dict target raises TypeError and a dict target gets the binding set. -/
def advSet (adv : Json) (k : String) (v : Json) : Except Crash Json :=
  match adv with
  | .obj fs => .ok (.obj (setField fs k v))
  | _ => .error .typeError

/-- Python iteration `for replay_id in v` (downloader.py:112) over a decoded
value: a list yields its elements in order, a string yields its characters as
one-character strings, a dict yields its keys (strings, in insertion order);
a number, boolean or None is not iterable and raises TypeError. -/
def pyIter : Json → Except Crash (List Json)
  | .arr xs => .ok xs
  | .str s => .ok (s.data.map fun c => .str (String.mk [c]))
  | .obj fs => .ok (fs.map fun p => .str p.1)
  | _ => .error .typeError

end Json

/-- Result of the `for replay_id in base_json[...]` loop
(downloader.py:112-129): the grown record set, `replays_cnt`, the detail
requests issued in order, and an uncaught exception if one was raised.
A non-200 response executes `break`: the loop ends without a crash. -/
structure AdvLoopResult where
  adv : Json
  cnt : Nat
  reqs : List Json
  crash : Option Crash
deriving DecidableEq

/-- The identifier loop of `download_advanced_replays` (downloader.py:112-129). -/
def advLoop (detail : Json → NetResult) (adv : Json) (ids : List Json)
    (cnt : Nat) (reqs : List Json) : AdvLoopResult :=
  match ids with
  | [] => ⟨adv, cnt, reqs, none⟩
  | e :: rest =>
      match Json.pyIn adv e with
      | .error c => ⟨adv, cnt, reqs, some c⟩
      | .ok true => advLoop detail adv rest cnt reqs
      | .ok false =>
          let reqs := reqs ++ [e]
          match detail e with
          | .exn => ⟨adv, cnt, reqs, some .netExn⟩
          | .resp status body =>
              if status = 200 then
                match Json.subscript body e with
                | .error c => ⟨adv, cnt, reqs, some c⟩
                | .ok v =>
                    match Json.advSet adv (match e with | .str k => k | _ => "") v with
                    | .error c => ⟨adv, cnt, reqs, some c⟩
                    | .ok adv' => advLoop detail adv' rest (cnt + 1) reqs
              else
                ⟨adv, cnt, reqs, none⟩

/-- The `with open(base_file, "r") as fdb, open(adv_file, "w") as fda:` block
(downloader.py:105-135), entered with `adv_json` already loaded.  The base
file is opened first, so a missing base file raises before the advanced file
is truncated; the truncation happens before the JSON parse of the base file
and before the loop.  The value under the category label is iterated with
Python semantics (`pyIter`): list elements, string characters, or dict keys;
a non-iterable value raises TypeError at the head of the loop. -/
def adv_fetch_block (detail : Json → NetResult) (acc : RunAcc)
    (gt label : String) (advJson : Json) : RunAcc :=
  match acc.st.getBase gt with
  | .absent => { acc with crash := some .ioError }   -- FileNotFoundError
  | .nonfile => { acc with crash := some .ioError }  -- IsADirectoryError
  | .file cBase =>
    -- `open(adv_file, "w")` truncates the advanced cache up front
    let acc := { acc with st := acc.st.setAdv gt (.file .empty) }
    match cBase with
    | .empty => { acc with crash := some .jsonError }
    | .badJson => { acc with crash := some .jsonError }
    | .json baseJson =>
      if baseJson.falsy then
        -- `if not base_json:` write back unchanged and continue;
        -- the source logs "No replays exist", a zero-fetch report
        { acc with st := acc.st.setAdv gt (.file (.json advJson)),
                   counts := acc.counts ++ [(gt, 0)] }
      else
        match Json.subscript baseJson (.str label) with
        | .error c => { acc with crash := some c }
        | .ok v =>
            match Json.pyIter v with
            | .error c => { acc with crash := some c }
            | .ok ids =>
                let r := advLoop detail advJson ids 0 []
                let acc := { acc with detailReqs := acc.detailReqs ++ r.reqs }
                match r.crash with
                | some c => { acc with crash := some c }
                | none =>
                    { acc with st := acc.st.setAdv gt (.file (.json r.adv)),
                               counts := acc.counts ++ [(gt, r.cnt)] }

/-- One iteration of the `for game_type in GAME_TYPES` loop of
`download_advanced_replays`: the `open(adv_file, "a+")` load
(downloader.py:96-102, creating an empty file when absent, parsing a
non-empty one) followed by the fetch block. -/
def download_adv_step (detail : Json → NetResult) (acc : RunAcc)
    (gt label : String) : RunAcc :=
  if acc.crash.isSome then acc else
  match acc.st.getAdv gt with
  | .nonfile => { acc with crash := some .ioError }
  | .absent =>
      adv_fetch_block detail { acc with st := acc.st.setAdv gt (.file .empty) }
        gt label (.obj [])
  | .file .empty => adv_fetch_block detail acc gt label (.obj [])
  | .file .badJson => { acc with crash := some .jsonError }
  | .file (.json j) => adv_fetch_block detail acc gt label j

/-- `BattleTag.download_advanced_replays`: the loop over all four game types. -/
def download_advanced_replays (detail : Json → NetResult) (acc : RunAcc) :
    RunAcc :=
  GAME_TYPES.foldl (fun a p => download_adv_step detail a p.1 p.2) acc

/-- One full run for one identity, as driven by
`BattleTags.download_advanced_replays` (downloader.py:162-164):
`download_base_replays` then `download_advanced_replays`.  A crash in
phase 1 terminates the process, so phase 2 steps leave the accumulator
untouched in that case. -/
def fullRun (listing : String → NetResult) (detail : Json → NetResult)
    (st : FsState) : RunAcc :=
  download_advanced_replays detail (download_base_replays listing (RunAcc.start st))

example :
    (fullRun (fun label => .resp 200 (.obj [(label, .arr [.str "r1"])]))
      (fun _ => .resp 200 (.obj [("r1", .num 7)])) .initial).detailReqs =
      [.str "r1", .str "r1", .str "r1", .str "r1"] := by decide

/-! ## Identity resolution — `BattleTags.setup_battle_tags_from_config`
(downloader.py:180-200) -/

/-- One `BattleTag` object (downloader.py:35-52): the constructor is called
with only `battletag`, every other attribute defaulting to `None`. -/
structure BattleTagR where
  battletag : Json
  api_token : Option String := none
  api_token_path : Option Json := none
  base_url : Option Json := none
  mode : Option Json := none
  region : Option Json := none
  game_type : Option Json := none
deriving DecidableEq

/-- `BattleTag(tag)`: a fresh object with only `battletag` set. -/
def BattleTagR.mk0 (tag : Json) : BattleTagR := { battletag := tag }

/-- The property list iterated at downloader.py:186-192. -/
def PPTYS : List String :=
  ["api_token_path", "base_url", "mode", "region", "game_type"]

/-- `setattr(tag_obj, ppty, v)` for the iterated property names. -/
def BattleTagR.setProp (t : BattleTagR) (ppty : String) (v : Json) : BattleTagR :=
  if ppty = "api_token_path" then { t with api_token_path := some v }
  else if ppty = "base_url" then { t with base_url := some v }
  else if ppty = "mode" then { t with mode := some v }
  else if ppty = "region" then { t with region := some v }
  else if ppty = "game_type" then { t with game_type := some v }
  else t

/-- Python `str.strip()` with no argument (downloader.py:200): drop leading
and trailing whitespace.  Written over the character list so that it
evaluates by kernel reduction. -/
def pyStrip (s : String) : String :=
  ⟨((s.data.dropWhile Char.isWhitespace).reverse.dropWhile
      Char.isWhitespace).reverse⟩

/-- The body of the `for ppty in [...]` loop (downloader.py:186-200) for one
property name.  `tokfs` maps a path to the contents of the regular file
there, if one exists (`os.path.isfile` + `open().read()`). -/
def resolve_ppty (cfg : Json) (tokfs : String → Option String) (tag : Json)
    (t : BattleTagR) (ppty : String) : Except Crash BattleTagR := do
  -- if ppty in cls.config_content.get("general", []):
  --     setattr(tag_obj, ppty, cls.config_content["general"][ppty])
  let generalVal :=
    match cfg with
    | .obj fs => (Json.findField fs "general").getD (.arr [])
    | _ => .arr []  -- unreachable: a non-dict document fails the assert first
  let inGeneral ← Json.pyIn generalVal (.str ppty)
  let t ←
    if inGeneral then do
      let gv ← Json.subscript cfg (.str "general")
      let v ← Json.subscript gv (.str ppty)
      pure (t.setProp ppty v)
    else pure t
  -- if isinstance(tag, list) and ppty in tag:
  --     setattr(tag_obj, ppty, cls.config_content["battle_tags"][tag][ppty])
  let t ←
    match tag with
    | .arr elems =>
        if (Json.str ppty) ∈ elems then do
          let btv ← Json.subscript cfg (.str "battle_tags")
          let entry ← Json.subscript btv tag  -- a list is unhashable: TypeError
          let v ← Json.subscript entry (.str ppty)
          pure (t.setProp ppty v)
        else pure t
    | _ => pure t
  -- if ppty == "api_token_path":
  --     assert os.path.isfile(tag_obj.api_token_path)
  --     with open(tag_obj.api_token_path) as fd:
  --         tag_obj.api_token = fd.read().strip()
  if ppty = "api_token_path" then
    match t.api_token_path with
    | some (.str p) =>
        match tokfs p with
        | some contents => pure { t with api_token := some (pyStrip contents) }
        | none => throw .assertFail
    | some _ => throw .typeError  -- os.path.isfile on a non-path value
    | none => throw .typeError    -- os.path.isfile(None)
  else pure t

/-- Sequential processing of the property names for one tag object; the
first uncaught exception terminates the process. -/
def resolvePptys (cfg : Json) (tokfs : String → Option String) (tag : Json)
    (t : BattleTagR) : List String → Except Crash BattleTagR
  | [] => .ok t
  | p :: rest =>
      match resolve_ppty cfg tokfs tag t p with
      | .error c => .error c
      | .ok t' => resolvePptys cfg tokfs tag t' rest

/-- Resolution of one entry of the `battle_tags` list. -/
def resolve_tag (cfg : Json) (tokfs : String → Option String) (tag : Json) :
    Except Crash BattleTagR :=
  resolvePptys cfg tokfs tag (BattleTagR.mk0 tag) PPTYS

/-- `for tag in cls.config_content.get("battle_tags", []):` — iterating a
list yields its elements, iterating a dict yields its keys; iterating
anything else is collapsed to TypeError (a string would yield characters;
no configuration this development reasons about has one there). -/
def tagsToIterate (v : Json) : Except Crash (List Json) :=
  match v with
  | .arr xs => .ok xs
  | .obj fs => .ok (fs.map fun p => .str p.1)
  | _ => .error .typeError

/-- The `for tag in ...` loop: resolve each entry in order, appending to the
class-level list; the first uncaught exception terminates the process. -/
def resolveTags (cfg : Json) (tokfs : String → Option String) :
    List Json → Except Crash (List BattleTagR)
  | [] => .ok []
  | x :: xs =>
      match resolve_tag cfg tokfs x with
      | .error c => .error c
      | .ok t =>
          match resolveTags cfg tokfs xs with
          | .error c => .error c
          | .ok ts => .ok (t :: ts)

/-- `BattleTags.setup_battle_tags_from_config` (downloader.py:180-200), one
resolution pass over a fresh class: the `battle_tags` list it builds, or the
crash that terminated the process. -/
def setup_battle_tags_from_config (cfg : Json)
    (tokfs : String → Option String) : Except Crash (List BattleTagR) := do
  -- assert "general" in cls.config_content
  let hasGeneral ← Json.pyIn cfg (.str "general")
  if hasGeneral then
    match cfg with
    | .obj fs => do
        let btv := (Json.findField fs "battle_tags").getD (.arr [])
        let tags ← tagsToIterate btv
        resolveTags cfg tokfs tags
    | _ => throw .typeError  -- `.get` on a non-dict document: AttributeError
  else throw .assertFail

example :
    setup_battle_tags_from_config
      (.obj [("general", .obj [("api_token_path", .str "/a")]),
             ("battle_tags", .arr [.str "Name#1234"])])
      (fun p => if p = "/a" then some " tok \n" else none) =
    .ok [{ battletag := .str "Name#1234", api_token := some "tok",
           api_token_path := some (.str "/a") }] := rfl

/-! ## Resolver lemmas -/

/-- `setattr` for a property other than `api_token_path` leaves the two
token fields untouched. -/
lemma setProp_token_frozen (t : BattleTagR) (ppty : String) (v : Json)
    (hne : ppty ≠ "api_token_path") :
    (t.setProp ppty v).api_token = t.api_token ∧
      (t.setProp ppty v).api_token_path = t.api_token_path := by
  unfold BattleTagR.setProp
  repeat' split
  all_goals simp_all

/-- Processing the `api_token_path` property successfully pins the token to
the trimmed contents of the file at the resolved path. -/
lemma resolve_ppty_token (cfg : Json) (tokfs : String → Option String)
    (tag : Json) (t t' : BattleTagR)
    (h : resolve_ppty cfg tokfs tag t "api_token_path" = .ok t') :
    ∃ p c, t'.api_token_path = some (.str p) ∧ tokfs p = some c ∧
      t'.api_token = some (pyStrip c) := by
  unfold resolve_ppty at h
  simp only [bind, Except.bind, pure, Except.pure] at h
  repeat' split at h
  all_goals cases h
  all_goals aesop

/-- Processing any other property leaves the token fields untouched. -/
lemma resolve_ppty_token_frozen (cfg : Json) (tokfs : String → Option String)
    (tag : Json) (t t' : BattleTagR) (ppty : String)
    (hne : ppty ≠ "api_token_path")
    (h : resolve_ppty cfg tokfs tag t ppty = .ok t') :
    t'.api_token = t.api_token ∧ t'.api_token_path = t.api_token_path := by
  unfold resolve_ppty at h
  simp only [bind, Except.bind, pure, Except.pure] at h
  repeat' split at h
  all_goals cases h
  all_goals
    simp_all [setProp_token_frozen _ _ _ hne,
      (setProp_token_frozen _ _ _ hne).1, (setProp_token_frozen _ _ _ hne).2]

/-- A successfully resolved tag object carries the trimmed contents of the
file at its resolved credential path. -/
lemma resolve_tag_token (cfg : Json) (tokfs : String → Option String)
    (tag : Json) (t : BattleTagR)
    (h : resolve_tag cfg tokfs tag = .ok t) :
    ∃ p c, t.api_token_path = some (.str p) ∧ tokfs p = some c ∧
      t.api_token = some (pyStrip c) := by
  unfold resolve_tag PPTYS at h
  unfold resolvePptys at h
  split at h
  · exact absurd h (by simp)
  · rename_i t1 h1
    unfold resolvePptys at h
    split at h
    · exact absurd h (by simp)
    · rename_i t2 h2
      unfold resolvePptys at h
      split at h
      · exact absurd h (by simp)
      · rename_i t3 h3
        unfold resolvePptys at h
        split at h
        · exact absurd h (by simp)
        · rename_i t4 h4
          unfold resolvePptys at h
          split at h
          · exact absurd h (by simp)
          · rename_i t5 h5
            unfold resolvePptys at h
            obtain ⟨p, c, hp, hc, ht⟩ := resolve_ppty_token _ _ _ _ _ h1
            have f2 := resolve_ppty_token_frozen _ _ _ _ _ _ (by decide) h2
            have f3 := resolve_ppty_token_frozen _ _ _ _ _ _ (by decide) h3
            have f4 := resolve_ppty_token_frozen _ _ _ _ _ _ (by decide) h4
            have f5 := resolve_ppty_token_frozen _ _ _ _ _ _ (by decide) h5
            cases h
            exact ⟨p, c, by rw [f5.2, f4.2, f3.2, f2.2, hp], hc,
              by rw [f5.1, f4.1, f3.1, f2.1, ht]⟩

/-- Every tag object in a successfully built list was successfully resolved
from some entry. -/
lemma resolveTags_mem (cfg : Json) (tokfs : String → Option String) :
    ∀ (l : List Json) (ts : List BattleTagR),
      resolveTags cfg tokfs l = .ok ts →
      ∀ t ∈ ts, ∃ x, resolve_tag cfg tokfs x = .ok t := by
  intro l
  induction l with
  | nil => intro ts h t ht; unfold resolveTags at h; cases h; simp at ht
  | cons x xs ih =>
      intro ts h t ht
      unfold resolveTags at h
      split at h
      · exact absurd h (by simp)
      · rename_i t0 h0
        split at h
        · exact absurd h (by simp)
        · rename_i ts0 hts0
          cases h
          rcases List.mem_cons.mp ht with rfl | hmem
          · exact ⟨x, h0⟩
          · exact ih ts0 hts0 t hmem

/-- A successful resolution pass yields exactly the tag objects resolved
from the configured entries. -/
lemma setup_ok_mem (cfg : Json) (tokfs : String → Option String)
    (tags : List BattleTagR)
    (h : setup_battle_tags_from_config cfg tokfs = .ok tags) :
    ∀ t ∈ tags, ∃ x, resolve_tag cfg tokfs x = .ok t := by
  unfold setup_battle_tags_from_config at h
  simp only [bind, Except.bind, pure, Except.pure] at h
  repeat' split at h
  all_goals first
    | exact absurd h (by simp)
    | exact resolveTags_mem _ _ _ _ h

/-! ## Filesystem state lemmas -/

namespace FsState

lemma lookupIn_setIn_self (m : List (String × FsEntry)) (k : String)
    (e : FsEntry) : lookupIn (setIn m k e) k = e := by
  induction m with
  | nil => simp [setIn, lookupIn]
  | cons p rest ih =>
      obtain ⟨k', e'⟩ := p
      by_cases h : k' = k <;> simp [setIn, lookupIn, h, ih]

lemma lookupIn_setIn_ne (m : List (String × FsEntry)) (k k' : String)
    (e : FsEntry) (h : k' ≠ k) :
    lookupIn (setIn m k e) k' = lookupIn m k' := by
  induction m with
  | nil =>
      simp only [setIn, lookupIn]
      rw [if_neg (fun hh => h hh.symm)]
  | cons p rest ih =>
      obtain ⟨k'', e''⟩ := p
      by_cases hk : k'' = k
      · subst hk
        simp only [setIn, if_pos rfl, lookupIn]
        rw [if_neg (fun hh => h hh.symm), if_neg (fun hh => h hh.symm)]
      · simp only [setIn, if_neg hk, lookupIn]
        by_cases hk' : k'' = k'
        · simp [hk']
        · simp [hk', ih]

@[simp] lemma getBase_setAdv (st : FsState) (gt gt' : String) (e : FsEntry) :
    (st.setAdv gt e).getBase gt' = st.getBase gt' := rfl

@[simp] lemma getAdv_setBase (st : FsState) (gt gt' : String) (e : FsEntry) :
    (st.setBase gt e).getAdv gt' = st.getAdv gt' := rfl

@[simp] lemma getAdv_setAdv_self (st : FsState) (gt : String) (e : FsEntry) :
    (st.setAdv gt e).getAdv gt = e := lookupIn_setIn_self _ _ _

@[simp] lemma getBase_setBase_self (st : FsState) (gt : String) (e : FsEntry) :
    (st.setBase gt e).getBase gt = e := lookupIn_setIn_self _ _ _

lemma getAdv_setAdv_ne (st : FsState) (gt gt' : String) (e : FsEntry)
    (h : gt' ≠ gt) : (st.setAdv gt e).getAdv gt' = st.getAdv gt' :=
  lookupIn_setIn_ne _ _ _ _ h

lemma getBase_setBase_ne (st : FsState) (gt gt' : String) (e : FsEntry)
    (h : gt' ≠ gt) : (st.setBase gt e).getBase gt' = st.getBase gt' :=
  lookupIn_setIn_ne _ _ _ _ h

end FsState

/-! ## Phase 1 step lemmas -/

/-- A crashed accumulator passes through a phase-1 step unchanged (the
process has already terminated). -/
lemma base_step_crashed (listing : String → NetResult) (acc : RunAcc)
    (gt label : String) (h : acc.crash.isSome) :
    download_base_step listing acc gt label = acc := by
  unfold download_base_step
  simp [h]

/-- When the base cache file for `gt` exists as a regular file, the phase-1
step for `gt` performs no network request and leaves the filesystem
untouched (only the crash flag may change, from the parse check). -/
lemma base_step_skip (listing : String → NetResult) (acc : RunAcc)
    (gt label : String) (c : FileContent)
    (h : acc.st.getBase gt = .file c) :
    (download_base_step listing acc gt label).st = acc.st ∧
    (download_base_step listing acc gt label).listingReqs =
      acc.listingReqs := by
  unfold download_base_step baseParseCheck
  by_cases hc : acc.crash.isSome
  · simp [hc]
  · simp [hc, h]
    split <;> simp

/-- A phase-1 step for `gt'` leaves every other game type's base entry, and
all advanced entries, untouched. -/
lemma base_step_frame (listing : String → NetResult) (acc : RunAcc)
    (gt' label' gt : String) (hne : gt ≠ gt') :
    (download_base_step listing acc gt' label').st.getBase gt =
      acc.st.getBase gt ∧
    (download_base_step listing acc gt' label').st.adv = acc.st.adv := by
  unfold download_base_step baseParseCheck
  by_cases hc : acc.crash.isSome
  · simp [hc]
  · rcases hb : acc.st.getBase gt' with _ | c | _
    all_goals simp only [hc, hb, if_false, Bool.false_eq_true]
    all_goals (repeat' split)
    all_goals
      simp_all [FsState.getBase_setBase_ne _ _ _ _ hne, FsState.getBase,
        FsState.setBase, FsState.lookupIn_setIn_ne _ _ _ _ hne]

/-- A phase-1 step either issues no listing request or exactly one, for its
own category label. -/
lemma base_step_reqs (listing : String → NetResult) (acc : RunAcc)
    (gt' label' : String) :
    (download_base_step listing acc gt' label').listingReqs =
      acc.listingReqs ∨
    (download_base_step listing acc gt' label').listingReqs =
      acc.listingReqs ++ [label'] := by
  unfold download_base_step baseParseCheck
  by_cases hc : acc.crash.isSome
  · simp [hc]
  · rcases hb : acc.st.getBase gt' with _ | c | _
    all_goals simp only [hc, hb, if_false, Bool.false_eq_true]
    all_goals (repeat' split)
    all_goals simp_all

/-- Fold form of the fetch-once property: a base entry that is a regular
file survives any run of phase-1 steps untouched, and its label is never
requested, provided no other processed category shares that label. -/
lemma foldl_base_fetch_once (listing : String → NetResult)
    (ps : List (String × String)) (gt label : String) (c : FileContent) :
    ∀ acc : RunAcc,
      (∀ q ∈ ps, q.1 ≠ gt → q.2 ≠ label) →
      acc.st.getBase gt = .file c → label ∉ acc.listingReqs →
      (ps.foldl (fun a p => download_base_step listing a p.1 p.2)
          acc).st.getBase gt = .file c ∧
      label ∉ (ps.foldl (fun a p => download_base_step listing a p.1 p.2)
          acc).listingReqs := by
  induction ps with
  | nil => intro acc _ hfile hreq; exact ⟨hfile, hreq⟩
  | cons q rest ih =>
      intro acc hps hfile hreq
      obtain ⟨g, l⟩ := q
      simp only [List.foldl_cons]
      by_cases hg : g = gt
      · subst hg
        obtain ⟨hst, hreqs⟩ := base_step_skip listing acc g l c hfile
        exact ih _ (fun q hq => hps q (List.mem_cons_of_mem _ hq))
          (hst ▸ hfile) (hreqs ▸ hreq)
      · have hfr := base_step_frame listing acc g l gt
          (fun hh => hg hh.symm)
        have hl : l ≠ label := hps (g, l) (List.mem_cons_self _ _) hg
        have hreq' : label ∉
            (download_base_step listing acc g l).listingReqs := by
          rcases base_step_reqs listing acc g l with hr | hr
          · rw [hr]; exact hreq
          · rw [hr]
            simp only [List.mem_append, List.mem_singleton]
            rintro (hmem | rfl)
            · exact hreq hmem
            · exact hl rfl
        exact ih _ (fun q hq => hps q (List.mem_cons_of_mem _ hq))
          (hfr.1 ▸ hfile) hreq'

/-! ## Phase 2 step lemmas -/

namespace FsState

lemma setIn_setIn (m : List (String × FsEntry)) (k : String) (a b : FsEntry) :
    setIn (setIn m k a) k b = setIn m k b := by
  induction m with
  | nil => simp [setIn]
  | cons p rest ih =>
      obtain ⟨k', e'⟩ := p
      by_cases hk : k' = k <;> simp [setIn, hk, ih]

lemma setAdv_setAdv (st : FsState) (gt : String) (a b : FsEntry) :
    (st.setAdv gt a).setAdv gt b = st.setAdv gt b := by
  simp [setAdv, setIn_setIn]

end FsState

/-- A crashed accumulator passes through a phase-2 step unchanged. -/
lemma adv_step_crashed (detail : Json → NetResult) (acc : RunAcc)
    (gt label : String) (h : acc.crash.isSome) :
    download_adv_step detail acc gt label = acc := by
  unfold download_adv_step
  simp [h]

/-- The three ways the `open(adv_file, "a+")` load can succeed: a missing
file is created and loads as the empty dict, an empty file loads as the
empty dict, and a valid-JSON file loads as its parse. -/
def advLoadOk (e : FsEntry) (j : Json) : Prop :=
  (e = .absent ∧ j = .obj []) ∨ (e = .file .empty ∧ j = .obj []) ∨
    e = .file (.json j)

/-- Behaviour of one phase-2 category step whose base listing holds an
identifier list under the category label: the loop runs, and afterwards
either the merged record set is persisted (loop ended normally, possibly by
`break`) and the count reported, or the uncaught exception leaves the
advanced cache file truncated empty. -/
lemma adv_step_run (detail : Json → NetResult) (acc : RunAcc)
    (gt label : String) (j : Json) (bf : List (String × Json))
    (ids : List Json) (r : AdvLoopResult)
    (hcr : acc.crash = none)
    (hload : advLoadOk (acc.st.getAdv gt) j)
    (hbase : acc.st.getBase gt = .file (.json (.obj bf)))
    (hf : Json.findField bf label = some (.arr ids))
    (hr : advLoop detail j ids 0 [] = r) :
    download_adv_step detail acc gt label =
      match r.crash with
      | none =>
          { acc with st := acc.st.setAdv gt (.file (.json r.adv)),
                     detailReqs := acc.detailReqs ++ r.reqs,
                     counts := acc.counts ++ [(gt, r.cnt)] }
      | some c =>
          { acc with st := acc.st.setAdv gt (.file .empty),
                     detailReqs := acc.detailReqs ++ r.reqs,
                     crash := some c } := by
  have hbf : bf ≠ [] := by
    intro hnil; rw [hnil] at hf; simp [Json.findField] at hf
  have hfalsy : (Json.obj bf).falsy = false := by
    simp [Json.falsy, hbf]
  obtain ⟨radv, rcnt, rreqs, rcrash⟩ := r
  unfold download_adv_step
  rcases hload with ⟨ha, hj⟩ | ⟨ha, hj⟩ | ha
  all_goals (try subst hj)
  all_goals
    simp only [hcr, ha, Option.isSome_none, Bool.false_eq_true, if_false]
  all_goals
    unfold adv_fetch_block
  all_goals
    simp only [FsState.getBase_setAdv, hbase, hfalsy, Bool.false_eq_true,
      if_false, Json.subscript, Json.hashable, hf, Json.pyIter, hr,
      FsState.setAdv_setAdv]
  all_goals
    rcases rcrash with _ | c <;> simp [hr, hcr, FsState.setAdv_setAdv]

/-- Behaviour of one phase-2 category step whose base listing parses to a
falsy value (e.g. the empty JSON object): the loaded record set is written
back unchanged, no detail request is made, and a zero count is reported. -/
lemma adv_step_falsy (detail : Json → NetResult) (acc : RunAcc)
    (gt label : String) (j b : Json)
    (hcr : acc.crash = none)
    (hload : advLoadOk (acc.st.getAdv gt) j)
    (hbase : acc.st.getBase gt = .file (.json b))
    (hfalsy : b.falsy = true) :
    download_adv_step detail acc gt label =
      { acc with st := acc.st.setAdv gt (.file (.json j)),
                 counts := acc.counts ++ [(gt, 0)] } := by
  unfold download_adv_step
  rcases hload with ⟨ha, hj⟩ | ⟨ha, hj⟩ | ha
  all_goals (try subst hj)
  all_goals
    simp only [hcr, ha, Option.isSome_none, Bool.false_eq_true, if_false]
  all_goals
    unfold adv_fetch_block
  all_goals
    simp [hbase, hfalsy, hcr, FsState.setAdv_setAdv]

/-! ## Identifier loop lemmas -/

namespace Json

lemma findField_append (fs gs : List (String × Json)) (k : String) :
    findField (fs ++ gs) k =
      match findField fs k with
      | some v => some v
      | none => findField gs k := by
  induction fs with
  | nil => simp [findField]
  | cons p rest ih =>
      obtain ⟨k', v'⟩ := p
      by_cases h : k' = k <;> simp [findField, h, ih]

lemma setField_of_not_found (fs : List (String × Json)) (k : String)
    (v : Json) (h : findField fs k = none) :
    setField fs k v = fs ++ [(k, v)] := by
  induction fs with
  | nil => simp [setField]
  | cons p rest ih =>
      obtain ⟨k', v'⟩ := p
      by_cases hk : k' = k
      · simp [findField, hk] at h
      · simp [findField, hk] at h
        simp [setField, hk, ih h]

lemma findField_pairs_of_not_mem (l : List String) (pl : String → Json)
    (k : String) (h : k ∉ l) :
    findField (l.map fun x => (x, pl x)) k = none := by
  induction l with
  | nil => simp [findField]
  | cons x rest ih =>
      simp only [List.mem_cons, not_or] at h
      have hxk : x ≠ k := fun hh => h.1 hh.symm
      simp [findField, hxk, ih h.2]

lemma findField_pairs_isSome (l : List String) (pl : String → Json)
    (k : String) (h : k ∈ l) :
    (findField (l.map fun x => (x, pl x)) k).isSome = true := by
  induction l with
  | nil => simp at h
  | cons x rest ih =>
      by_cases hx : x = k
      · simp [findField, hx]
      · rcases List.mem_cons.mp h with rfl | hmem
        · exact absurd rfl hx
        · simp [findField, hx, ih hmem]

end Json

/-- Unfolding equation for the empty identifier list. -/
lemma advLoop_nil (detail : Json → NetResult) (adv : Json) (cnt : Nat)
    (reqs : List Json) :
    advLoop detail adv [] cnt reqs = ⟨adv, cnt, reqs, none⟩ := rfl

/-- Unfolding equation for one identifier. -/
lemma advLoop_cons (detail : Json → NetResult) (adv e : Json)
    (rest : List Json) (cnt : Nat) (reqs : List Json) :
    advLoop detail adv (e :: rest) cnt reqs =
      match Json.pyIn adv e with
      | .error c => ⟨adv, cnt, reqs, some c⟩
      | .ok true => advLoop detail adv rest cnt reqs
      | .ok false =>
          match detail e with
          | .exn => ⟨adv, cnt, reqs ++ [e], some .netExn⟩
          | .resp status body =>
              if status = 200 then
                match Json.subscript body e with
                | .error c => ⟨adv, cnt, reqs ++ [e], some c⟩
                | .ok v =>
                    match Json.advSet adv
                        (match e with | .str k => k | _ => "") v with
                    | .error c => ⟨adv, cnt, reqs ++ [e], some c⟩
                    | .ok adv' =>
                        advLoop detail adv' rest (cnt + 1) (reqs ++ [e])
              else ⟨adv, cnt, reqs ++ [e], none⟩ := rfl

/-- A non-200 detail response on the first not-yet-cached identifier stops
the loop at once: no further identifier is requested, nothing is merged,
and the loop ends without an uncaught exception (`break`). -/
lemma advLoop_break (detail : Json → NetResult) (adv e : Json)
    (rest : List Json) (cnt : Nat) (reqs : List Json) (s : Nat) (b : Json)
    (hm : Json.pyIn adv e = .ok false)
    (hd : detail e = .resp s b) (hs : s ≠ 200) :
    advLoop detail adv (e :: rest) cnt reqs =
      ⟨adv, cnt, reqs ++ [e], none⟩ := by
  rw [advLoop_cons]
  simp [hm, hd, hs]

/-- Identifiers already present in the record set are skipped without any
network request. -/
lemma advLoop_skip (detail : Json → NetResult) (adv : Json) :
    ∀ (pre rest : List Json) (cnt : Nat) (reqs : List Json),
      (∀ x ∈ pre, Json.pyIn adv x = .ok true) →
      advLoop detail adv (pre ++ rest) cnt reqs =
        advLoop detail adv rest cnt reqs := by
  intro pre
  induction pre with
  | nil => intro rest cnt reqs _; simp
  | cons x rest' ih =>
      intro rest cnt reqs h
      have hx := h x (List.mem_cons_self _ _)
      rw [List.cons_append, advLoop_cons]
      simp only [hx]
      exact ih rest cnt reqs (fun y hy => h y (List.mem_cons_of_mem _ hy))

/-- A run of fresh identifiers whose detail responses are all `200` with the
API's single-key body shape is fetched in order: each is requested once and
appended to the record set in listing order. -/
lemma advLoop_success (detail : Json → NetResult) (pl : String → Json) :
    ∀ (pre : List String) (fs : List (String × Json)) (rest : List Json)
      (cnt : Nat) (reqs : List Json),
      pre.Nodup →
      (∀ x ∈ pre, Json.findField fs x = none) →
      (∀ x ∈ pre, detail (.str x) = .resp 200 (.obj [(x, pl x)])) →
      advLoop detail (.obj fs) (pre.map .str ++ rest) cnt reqs =
        advLoop detail (.obj (fs ++ pre.map fun x => (x, pl x))) rest
          (cnt + pre.length) (reqs ++ pre.map .str) := by
  intro pre
  induction pre with
  | nil => intro fs rest cnt reqs _ _ _; simp
  | cons x pre' ih =>
      intro fs rest cnt reqs hnd hfresh hdet
      have hx : Json.findField fs x = none :=
        hfresh x (List.mem_cons_self _ _)
      have hdx := hdet x (List.mem_cons_self _ _)
      rw [List.map_cons, List.cons_append, advLoop_cons]
      simp only [Json.pyIn, Json.hashable, hx, Option.isSome_none, hdx,
        if_pos rfl, if_true, Json.subscript, Json.findField,
        Json.advSet, Json.setField_of_not_found fs x (pl x) hx]
      rw [ih (fs ++ [(x, pl x)]) rest (cnt + 1) (reqs ++ [Json.str x])
        (List.nodup_cons.mp hnd).2
        (fun y hy => by
          rw [Json.findField_append]
          rw [hfresh y (List.mem_cons_of_mem _ hy)]
          have hyx : y ≠ x := by
            intro hh
            exact (List.nodup_cons.mp hnd).1 (hh ▸ hy)
          simp [Json.findField, fun hh : x = y => hyx hh.symm]
          intro hh; exact absurd hh.symm hyx)
        (fun y hy => hdet y (List.mem_cons_of_mem _ hy))]
      congr 1
      · simp
      · simp only [List.length_cons]; omega
      · simp

/-! ## Claim C4 -/

/-- C4 counterexample: when the base-listing path is occupied by a
non-regular entry (e.g. a directory), the path is not absent and yet a
listing request is issued — refuting "a listing request is issued only when
the file is absent". -/
theorem C4_counterexample :
    (FsState.mk [("qm", .nonfile)] []).getBase "qm" ≠ .absent ∧
    "Quick Match" ∈ (download_base_replays (fun _ => .resp 200 (.obj []))
      (RunAcc.start ⟨[("qm", .nonfile)], []⟩)).listingReqs := by decide

/-- C4 (amended): if the base-listing cache file for a category exists as a
regular file (with any contents), phase 1 issues no listing request for
that category's label and leaves the file unchanged, regardless of remote
state; a listing request can be issued only when the path is absent or not
a regular file. -/
theorem C4_fetch_once (listing : String → NetResult) (st : FsState)
    (gt label : String) (c : FileContent)
    (hmem : (gt, label) ∈ GAME_TYPES)
    (hfile : st.getBase gt = .file c) :
    label ∉ (download_base_replays listing (RunAcc.start st)).listingReqs ∧
    (download_base_replays listing (RunAcc.start st)).st.getBase gt =
      .file c := by
  have hps : ∀ q ∈ GAME_TYPES, q.1 ≠ gt → q.2 ≠ label := by
    fin_cases hmem <;> decide
  have h := foldl_base_fetch_once listing GAME_TYPES gt label c
    (RunAcc.start st) hps hfile (by simp [RunAcc.start])
  exact ⟨h.2, h.1⟩

theorem C4_fetch_once_witness :
    (("qm", "Quick Match") ∈ GAME_TYPES ∧
      (FsState.mk [("qm", .file .empty)] []).getBase "qm" =
        .file .empty) ∧
    "Quick Match" ∉ (download_base_replays (fun _ => .resp 200 (.obj []))
      (RunAcc.start ⟨[("qm", .file .empty)], []⟩)).listingReqs :=
  ⟨⟨by decide, rfl⟩,
   (C4_fetch_once (fun _ => .resp 200 (.obj []))
      ⟨[("qm", .file .empty)], []⟩ "qm" "Quick Match" .empty
      (by decide) rfl).1⟩

/-- Behaviour of one phase-2 category step whose base listing is a
non-empty object lacking the category label: the subscript raises KeyError
after the advanced cache has been truncated, so the step crashes with the
advanced file left empty. -/
lemma adv_step_keyError (detail : Json → NetResult) (acc : RunAcc)
    (gt label : String) (j : Json) (bf : List (String × Json))
    (hcr : acc.crash = none)
    (hload : advLoadOk (acc.st.getAdv gt) j)
    (hbase : acc.st.getBase gt = .file (.json (.obj bf)))
    (hbf : bf ≠ [])
    (hf : Json.findField bf label = none) :
    download_adv_step detail acc gt label =
      { acc with st := acc.st.setAdv gt (.file .empty),
                 crash := some .keyError } := by
  have hfalsy : (Json.obj bf).falsy = false := by
    simp [Json.falsy, hbf]
  unfold download_adv_step
  rcases hload with ⟨ha, hj⟩ | ⟨ha, hj⟩ | ha
  all_goals (try subst hj)
  all_goals
    simp only [hcr, ha, Option.isSome_none, Bool.false_eq_true, if_false]
  all_goals
    unfold adv_fetch_block
  all_goals
    simp [hbase, hfalsy, hcr, Json.subscript, Json.hashable, hf,
      FsState.setAdv_setAdv]

/-! ## Claim C5 -/

/-- C5 counterexample: a `201` listing response has a 2xx status, yet it is
not treated as a success whose body is persisted: `assert res.status_code
== 200` fails, aborting the run with nothing persisted. -/
theorem C5_counterexample :
    (download_base_replays
      (fun _ => .resp 201 (.obj [("Quick Match", .arr [])]))
      (RunAcc.start .initial)).crash = some .assertFail ∧
    (download_base_replays
      (fun _ => .resp 201 (.obj [("Quick Match", .arr [])]))
      (RunAcc.start .initial)).st.getBase "qm" = .absent := by decide

/-- C5 (amended): status handling is by equality with 200, not by 2xx
class.  (1) In phase 1 a non-200 listing response is fatal for the whole
run (AssertionError, nothing persisted); (2) a 200 listing response has its
body persisted to the base cache file without a crash; (3) once crashed,
every later phase-1 and phase-2 step is a no-op (the process has
terminated); (4) in phase 2 a non-200 detail response merely ends the
category's identifier loop, requesting nothing further, without an uncaught
exception; (5) a category whose loop ends without an uncaught exception
persists the merged record set, reports its count, and leaves the run
crash-free, so processing proceeds to subsequent categories. -/
theorem C5_status_policy :
    (∀ (listing : String → NetResult) (acc : RunAcc) (gt label : String)
        (s : Nat) (b : Json), acc.crash = none →
        acc.st.getBase gt = .absent → listing label = .resp s b →
        s ≠ 200 →
        (download_base_step listing acc gt label).crash =
          some .assertFail ∧
        (download_base_step listing acc gt label).st = acc.st) ∧
    (∀ (listing : String → NetResult) (acc : RunAcc) (gt label : String)
        (b : Json), acc.crash = none →
        acc.st.getBase gt = .absent → listing label = .resp 200 b →
        (download_base_step listing acc gt label).st.getBase gt =
          .file (.json b) ∧
        (download_base_step listing acc gt label).crash = none) ∧
    (∀ (listing : String → NetResult) (detail : Json → NetResult)
        (acc : RunAcc) (gt label : String), acc.crash.isSome →
        download_base_step listing acc gt label = acc ∧
        download_adv_step detail acc gt label = acc) ∧
    (∀ (detail : Json → NetResult) (adv e : Json) (rest : List Json)
        (cnt : Nat) (reqs : List Json) (s : Nat) (b : Json),
        Json.pyIn adv e = .ok false → detail e = .resp s b → s ≠ 200 →
        advLoop detail adv (e :: rest) cnt reqs =
          ⟨adv, cnt, reqs ++ [e], none⟩) ∧
    (∀ (detail : Json → NetResult) (acc : RunAcc) (gt label : String)
        (j : Json) (bf : List (String × Json)) (ids : List Json)
        (r : AdvLoopResult),
        acc.crash = none → advLoadOk (acc.st.getAdv gt) j →
        acc.st.getBase gt = .file (.json (.obj bf)) →
        Json.findField bf label = some (.arr ids) →
        advLoop detail j ids 0 [] = r → r.crash = none →
        (download_adv_step detail acc gt label).crash = none ∧
        (download_adv_step detail acc gt label).st.getAdv gt =
          .file (.json r.adv) ∧
        (download_adv_step detail acc gt label).counts =
          acc.counts ++ [(gt, r.cnt)]) := by
  refine ⟨?_, ?_, ?_, ?_, ?_⟩
  · intro listing acc gt label s b hcr hb hl hs
    unfold download_base_step
    simp [hcr, hb, hl, hs]
  · intro listing acc gt label b hcr hb hl
    unfold download_base_step baseParseCheck
    simp [hcr, hb, hl]
  · intro listing detail acc gt label h
    exact ⟨base_step_crashed listing acc gt label h,
      adv_step_crashed detail acc gt label h⟩
  · intro detail adv e rest cnt reqs s b hm hd hs
    exact advLoop_break detail adv e rest cnt reqs s b hm hd hs
  · intro detail acc gt label j bf ids r hcr hload hbase hf hr hrc
    rw [adv_step_run detail acc gt label j bf ids r hcr hload hbase hf hr]
    rcases r with ⟨radv, rcnt, rreqs, rcrash⟩
    simp only at hrc
    subst hrc
    simp [hcr]

theorem C5_status_policy_witness :
    ((download_base_step (fun _ => .resp 404 .null) (RunAcc.start .initial)
        "qm" "Quick Match").crash = some .assertFail ∧
      (download_base_step (fun _ => .resp 404 .null) (RunAcc.start .initial)
        "qm" "Quick Match").st = FsState.initial) ∧
    ((download_base_step (fun _ => .resp 200 (.obj []))
        (RunAcc.start .initial) "qm" "Quick Match").st.getBase "qm" =
        .file (.json (.obj [])) ∧
      (download_base_step (fun _ => .resp 200 (.obj []))
        (RunAcc.start .initial) "qm" "Quick Match").crash = none) ∧
    (download_base_step (fun _ => .resp 200 (.obj []))
        ⟨.initial, [], [], [], some .assertFail⟩ "qm" "Quick Match" =
        ⟨.initial, [], [], [], some .assertFail⟩ ∧
      download_adv_step (fun _ => .resp 200 .null)
        ⟨.initial, [], [], [], some .assertFail⟩ "qm" "Quick Match" =
        ⟨.initial, [], [], [], some .assertFail⟩) ∧
    (advLoop (fun _ => .resp 404 .null) (.obj []) [.str "r1"] 0 [] =
      ⟨.obj [], 0, [.str "r1"], none⟩) ∧
    ((download_adv_step (fun _ => .resp 200 (.obj [("r1", .null)]))
        (RunAcc.start ⟨[("qm", .file (.json (.obj
          [("Quick Match", .arr [.str "r1"])])))], []⟩)
        "qm" "Quick Match").crash = none ∧
      (download_adv_step (fun _ => .resp 200 (.obj [("r1", .null)]))
        (RunAcc.start ⟨[("qm", .file (.json (.obj
          [("Quick Match", .arr [.str "r1"])])))], []⟩)
        "qm" "Quick Match").st.getAdv "qm" =
        .file (.json (.obj [("r1", .null)])) ∧
      (download_adv_step (fun _ => .resp 200 (.obj [("r1", .null)]))
        (RunAcc.start ⟨[("qm", .file (.json (.obj
          [("Quick Match", .arr [.str "r1"])])))], []⟩)
        "qm" "Quick Match").counts = [("qm", 1)]) :=
  ⟨C5_status_policy.1 _ _ "qm" "Quick Match" 404 .null rfl rfl rfl
      (by decide),
   C5_status_policy.2.1 _ _ "qm" "Quick Match" (.obj []) rfl rfl rfl,
   C5_status_policy.2.2.1 _ _ _ "qm" "Quick Match" rfl,
   C5_status_policy.2.2.2.1 _ (.obj []) (.str "r1") [] 0 [] 404 .null
     rfl rfl (by decide),
   C5_status_policy.2.2.2.2 _ _ "qm" "Quick Match" (.obj [])
     [("Quick Match", .arr [.str "r1"])] [.str "r1"]
     ⟨.obj [("r1", .null)], 1, [.str "r1"], none⟩ rfl
     (Or.inl ⟨rfl, rfl⟩) rfl rfl rfl rfl⟩

/-! ## Claim C6 -/

/-- C6 counterexample: a base listing that is a non-empty object whose
category label is absent (here the `qm` base file holds only a
"Storm League" entry).  The claim predicts a normal outcome writing the
record set back unchanged; the code instead raises an uncaught KeyError and
leaves the advanced cache truncated to an empty file (the prior record
"old" is lost), with no count reported. -/
theorem C6_counterexample :
    (download_adv_step (fun _ => .resp 200 .null)
      (RunAcc.start ⟨[("qm", .file (.json (.obj
        [("Storm League", .arr [.str "x1"])])))],
        [("qm", .file (.json (.obj [("old", .num 1)])))]⟩)
      "qm" "Quick Match").crash = some .keyError ∧
    (download_adv_step (fun _ => .resp 200 .null)
      (RunAcc.start ⟨[("qm", .file (.json (.obj
        [("Storm League", .arr [.str "x1"])])))],
        [("qm", .file (.json (.obj [("old", .num 1)])))]⟩)
      "qm" "Quick Match").st.getAdv "qm" = .file .empty ∧
    (download_adv_step (fun _ => .resp 200 .null)
      (RunAcc.start ⟨[("qm", .file (.json (.obj
        [("Storm League", .arr [.str "x1"])])))],
        [("qm", .file (.json (.obj [("old", .num 1)])))]⟩)
      "qm" "Quick Match").counts = [] := by decide

/-- C6 (amended): the two no-identifier cases the code handles normally are
(1) a base listing parsing to a falsy value (in particular the empty JSON
object) and (2) the category label mapping to an empty list.  In both, the
loaded Advanced Record Set is written back unchanged, no detail request is
made, fetched-count 0 is reported, and the step ends without a crash so
processing moves to the next category.  (A non-empty object lacking the
label instead raises an uncaught KeyError, leaving the advanced cache
truncated: see the counterexample.)  In case (1) the zero-fetch report is
the "No replays exist" message rather than the count message. -/
theorem C6_empty_listing (detail : Json → NetResult) (acc : RunAcc)
    (gt label : String) (j : Json)
    (hcr : acc.crash = none)
    (hload : advLoadOk (acc.st.getAdv gt) j) :
    (acc.st.getBase gt = .file (.json (.obj [])) →
      (download_adv_step detail acc gt label).st.getAdv gt =
        .file (.json j) ∧
      (download_adv_step detail acc gt label).detailReqs =
        acc.detailReqs ∧
      (download_adv_step detail acc gt label).counts =
        acc.counts ++ [(gt, 0)] ∧
      (download_adv_step detail acc gt label).crash = none) ∧
    (∀ bf, acc.st.getBase gt = .file (.json (.obj bf)) →
      Json.findField bf label = some (.arr []) →
      (download_adv_step detail acc gt label).st.getAdv gt =
        .file (.json j) ∧
      (download_adv_step detail acc gt label).detailReqs =
        acc.detailReqs ∧
      (download_adv_step detail acc gt label).counts =
        acc.counts ++ [(gt, 0)] ∧
      (download_adv_step detail acc gt label).crash = none) := by
  constructor
  · intro hbase
    rw [adv_step_falsy detail acc gt label j (.obj []) hcr hload hbase
      (by simp [Json.falsy])]
    simp [hcr]
  · intro bf hbase hf
    rw [adv_step_run detail acc gt label j bf [] ⟨j, 0, [], none⟩ hcr hload
      hbase hf (advLoop_nil detail j 0 [])]
    simp [hcr]

theorem C6_empty_listing_witness :
    ((download_adv_step (fun _ => .resp 200 .null)
        (RunAcc.start ⟨[("qm", .file (.json (.obj [])))], []⟩)
        "qm" "Quick Match").st.getAdv "qm" = .file (.json (.obj [])) ∧
      (download_adv_step (fun _ => .resp 200 .null)
        (RunAcc.start ⟨[("qm", .file (.json (.obj [])))], []⟩)
        "qm" "Quick Match").detailReqs = [] ∧
      (download_adv_step (fun _ => .resp 200 .null)
        (RunAcc.start ⟨[("qm", .file (.json (.obj [])))], []⟩)
        "qm" "Quick Match").counts = [("qm", 0)] ∧
      (download_adv_step (fun _ => .resp 200 .null)
        (RunAcc.start ⟨[("qm", .file (.json (.obj [])))], []⟩)
        "qm" "Quick Match").crash = none) ∧
    ((download_adv_step (fun _ => .resp 200 .null)
        (RunAcc.start ⟨[("qm", .file (.json (.obj
          [("Quick Match", .arr [])])))], []⟩)
        "qm" "Quick Match").st.getAdv "qm" = .file (.json (.obj [])) ∧
      (download_adv_step (fun _ => .resp 200 .null)
        (RunAcc.start ⟨[("qm", .file (.json (.obj
          [("Quick Match", .arr [])])))], []⟩)
        "qm" "Quick Match").detailReqs = [] ∧
      (download_adv_step (fun _ => .resp 200 .null)
        (RunAcc.start ⟨[("qm", .file (.json (.obj
          [("Quick Match", .arr [])])))], []⟩)
        "qm" "Quick Match").counts = [("qm", 0)] ∧
      (download_adv_step (fun _ => .resp 200 .null)
        (RunAcc.start ⟨[("qm", .file (.json (.obj
          [("Quick Match", .arr [])])))], []⟩)
        "qm" "Quick Match").crash = none) :=
  ⟨(C6_empty_listing (fun _ => .resp 200 .null)
      (RunAcc.start ⟨[("qm", .file (.json (.obj [])))], []⟩)
      "qm" "Quick Match" (.obj []) rfl (Or.inl ⟨rfl, rfl⟩)).1 rfl,
   (C6_empty_listing (fun _ => .resp 200 .null)
      (RunAcc.start ⟨[("qm", .file (.json (.obj
        [("Quick Match", .arr [])])))], []⟩)
      "qm" "Quick Match" (.obj []) rfl (Or.inl ⟨rfl, rfl⟩)).2
      [("Quick Match", .arr [])] rfl rfl⟩

/-! ## Claim C10 -/

/-- C10: the advanced cache file is truncated by `open(adv_file, "w")`
before the identifier loop and the merged set is written only after it, so
any uncaught exception inside the loop — a transport exception out of
`requests.get`, or a KeyError extracting the identifier from a 200 body
that lacks it — skips the final write and leaves the advanced cache file
empty, losing all previously cached records.  Part 1: a crashed loop leaves
the file empty and the crash propagates.  Part 2: a transport exception on
a fresh identifier crashes the loop.  Part 3: a 200 response whose body
lacks the requested identifier crashes the loop with the extraction
error. -/
theorem C10_truncation_loss :
    (∀ (detail : Json → NetResult) (acc : RunAcc) (gt label : String)
        (j : Json) (bf : List (String × Json)) (ids : List Json)
        (r : AdvLoopResult) (c : Crash),
        acc.crash = none → advLoadOk (acc.st.getAdv gt) j →
        acc.st.getBase gt = .file (.json (.obj bf)) →
        Json.findField bf label = some (.arr ids) →
        advLoop detail j ids 0 [] = r → r.crash = some c →
        (download_adv_step detail acc gt label).crash = some c ∧
        (download_adv_step detail acc gt label).st.getAdv gt =
          .file .empty) ∧
    (∀ (detail : Json → NetResult) (adv e : Json) (rest : List Json)
        (cnt : Nat) (reqs : List Json),
        Json.pyIn adv e = .ok false → detail e = .exn →
        advLoop detail adv (e :: rest) cnt reqs =
          ⟨adv, cnt, reqs ++ [e], some .netExn⟩) ∧
    (∀ (detail : Json → NetResult) (adv e : Json) (rest : List Json)
        (cnt : Nat) (reqs : List Json) (b : Json) (c : Crash),
        Json.pyIn adv e = .ok false → detail e = .resp 200 b →
        Json.subscript b e = .error c →
        advLoop detail adv (e :: rest) cnt reqs =
          ⟨adv, cnt, reqs ++ [e], some c⟩) := by
  refine ⟨?_, ?_, ?_⟩
  · intro detail acc gt label j bf ids r c hcr hload hbase hf hr hrc
    rw [adv_step_run detail acc gt label j bf ids r hcr hload hbase hf hr]
    rcases r with ⟨radv, rcnt, rreqs, rcrash⟩
    simp only at hrc
    subst hrc
    simp
  · intro detail adv e rest cnt reqs hm hd
    rw [advLoop_cons]
    simp [hm, hd]
  · intro detail adv e rest cnt reqs b c hm hd hsub
    rw [advLoop_cons]
    simp [hm, hd, hsub]

theorem C10_truncation_loss_witness :
    ((download_adv_step (fun _ => .resp 200 (.obj []))
        (RunAcc.start ⟨[("qm", .file (.json (.obj
          [("Quick Match", .arr [.str "r1"])])))],
          [("qm", .file (.json (.obj [("old", .num 1)])))]⟩)
        "qm" "Quick Match").crash = some .keyError ∧
      (download_adv_step (fun _ => .resp 200 (.obj []))
        (RunAcc.start ⟨[("qm", .file (.json (.obj
          [("Quick Match", .arr [.str "r1"])])))],
          [("qm", .file (.json (.obj [("old", .num 1)])))]⟩)
        "qm" "Quick Match").st.getAdv "qm" = .file .empty) ∧
    (advLoop (fun _ => .exn) (.obj [("old", .num 1)]) [.str "r1"] 0 [] =
      ⟨.obj [("old", .num 1)], 0, [.str "r1"], some .netExn⟩) ∧
    (advLoop (fun _ => .resp 200 (.obj [])) (.obj [("old", .num 1)])
        [.str "r1"] 0 [] =
      ⟨.obj [("old", .num 1)], 0, [.str "r1"], some .keyError⟩) :=
  ⟨C10_truncation_loss.1 (fun _ => .resp 200 (.obj []))
      (RunAcc.start ⟨[("qm", .file (.json (.obj
        [("Quick Match", .arr [.str "r1"])])))],
        [("qm", .file (.json (.obj [("old", .num 1)])))]⟩)
      "qm" "Quick Match" (.obj [("old", .num 1)])
      [("Quick Match", .arr [.str "r1"])] [.str "r1"]
      ⟨.obj [("old", .num 1)], 0, [.str "r1"], some .keyError⟩ .keyError
      rfl (Or.inr (Or.inr rfl)) rfl rfl rfl rfl,
   C10_truncation_loss.2.1 (fun _ => .exn) (.obj [("old", .num 1)])
      (.str "r1") [] 0 [] rfl rfl,
   C10_truncation_loss.2.2 (fun _ => .resp 200 (.obj []))
      (.obj [("old", .num 1)]) (.str "r1") [] 0 [] (.obj []) .keyError
      rfl rfl rfl⟩

/-! ## Run composition lemmas -/

/-- A phase-1 step over an absent base file with a 200 listing response
persists the body and issues exactly one listing request. -/
lemma base_step_fetch (listing : String → NetResult) (acc : RunAcc)
    (gt label : String) (b : Json)
    (hcr : acc.crash = none) (hb : acc.st.getBase gt = .absent)
    (hl : listing label = .resp 200 b) :
    download_base_step listing acc gt label =
      { acc with st := acc.st.setBase gt (.file (.json b)),
                 listingReqs := acc.listingReqs ++ [label] } := by
  unfold download_base_step baseParseCheck
  simp [hcr, hb, hl]

/-- A phase-1 step over an existing valid-JSON base file is a no-op. -/
lemma base_step_skip_json (listing : String → NetResult) (acc : RunAcc)
    (gt label : String) (j : Json)
    (hcr : acc.crash = none) (hb : acc.st.getBase gt = .file (.json j)) :
    download_base_step listing acc gt label = acc := by
  unfold download_base_step baseParseCheck
  simp [hcr, hb]

/-- A phase-2 step starting from an absent advanced cache, over a base
listing whose identifiers all answer 200 with the single-key body shape,
fetches every identifier in listing order. -/
lemma adv_step_fetch_all (detail : Json → NetResult) (acc : RunAcc)
    (gt label : String) (ids : List String) (bf : List (String × Json))
    (pl : String → Json)
    (hcr : acc.crash = none) (hadv : acc.st.getAdv gt = .absent)
    (hbase : acc.st.getBase gt = .file (.json (.obj bf)))
    (hf : Json.findField bf label = some (.arr (ids.map Json.str)))
    (hnd : ids.Nodup)
    (hdet : ∀ x ∈ ids, detail (.str x) = .resp 200 (.obj [(x, pl x)])) :
    download_adv_step detail acc gt label =
      { acc with
          st := acc.st.setAdv gt (.file (.json (.obj
            (ids.map fun x => (x, pl x))))),
          detailReqs := acc.detailReqs ++ ids.map Json.str,
          counts := acc.counts ++ [(gt, ids.length)] } := by
  have hloop : advLoop detail (.obj []) (ids.map Json.str) 0 [] =
      ⟨.obj (ids.map fun x => (x, pl x)), ids.length,
        ids.map Json.str, none⟩ := by
    rw [← List.append_nil (ids.map Json.str)]
    rw [advLoop_success detail pl ids [] [] 0 [] hnd (fun x _ => rfl) hdet]
    rw [advLoop_nil]
    simp
  rw [adv_step_run detail acc gt label (.obj []) bf (ids.map Json.str)
    ⟨.obj (ids.map fun x => (x, pl x)), ids.length, ids.map Json.str, none⟩
    hcr (Or.inl ⟨hadv, rfl⟩) hbase hf hloop]

/-- A phase-2 step whose advanced cache already covers every listed
identifier skips them all: no request, zero count, record set rewritten
with its own contents. -/
lemma adv_step_skip_all (detail : Json → NetResult) (acc : RunAcc)
    (gt label : String) (ids : List String) (bf fs : List (String × Json))
    (hcr : acc.crash = none)
    (hadv : acc.st.getAdv gt = .file (.json (.obj fs)))
    (hbase : acc.st.getBase gt = .file (.json (.obj bf)))
    (hf : Json.findField bf label = some (.arr (ids.map Json.str)))
    (hcov : ∀ x ∈ ids, (Json.findField fs x).isSome = true) :
    download_adv_step detail acc gt label =
      { acc with st := acc.st.setAdv gt (.file (.json (.obj fs))),
                 counts := acc.counts ++ [(gt, 0)] } := by
  have hskip : ∀ y ∈ ids.map Json.str,
      Json.pyIn (.obj fs) y = .ok true := by
    intro y hy
    obtain ⟨x, hx, rfl⟩ := List.mem_map.mp hy
    simp [Json.pyIn, Json.hashable, hcov x hx]
  have hloop : advLoop detail (.obj fs) (ids.map Json.str) 0 [] =
      ⟨.obj fs, 0, [], none⟩ := by
    rw [← List.append_nil (ids.map Json.str)]
    rw [advLoop_skip detail _ (ids.map Json.str) [] 0 [] hskip]
    exact advLoop_nil detail (.obj fs) 0 []
  rw [adv_step_run detail acc gt label (.obj fs) bf (ids.map Json.str)
    ⟨.obj fs, 0, [], none⟩ hcr (Or.inr (Or.inr hadv)) hbase hf hloop]
  simp

/-- Phase 1 over absent base files with all-200 listing responses: every
processed category's base file receives its listing body; nothing else
changes on disk. -/
lemma foldl_base_fetch_all (listing : String → NetResult)
    (bodies : String → List (String × Json)) :
    ∀ (ps : List (String × String)) (acc : RunAcc),
      acc.crash = none → (ps.map Prod.fst).Nodup →
      (∀ q ∈ ps, acc.st.getBase q.1 = .absent ∧
        listing q.2 = .resp 200 (.obj (bodies q.2))) →
      (ps.foldl (fun a p => download_base_step listing a p.1 p.2)
          acc).crash = none ∧
      (∀ q ∈ ps,
        (ps.foldl (fun a p => download_base_step listing a p.1 p.2)
          acc).st.getBase q.1 = .file (.json (.obj (bodies q.2)))) ∧
      (∀ gt, gt ∉ ps.map Prod.fst →
        (ps.foldl (fun a p => download_base_step listing a p.1 p.2)
          acc).st.getBase gt = acc.st.getBase gt) ∧
      (ps.foldl (fun a p => download_base_step listing a p.1 p.2)
          acc).st.adv = acc.st.adv := by
  intro ps
  induction ps with
  | nil => intro acc hcr _ _; exact ⟨hcr, by simp, fun _ _ => rfl, rfl⟩
  | cons q rest ih =>
      intro acc hcr hnd hq
      obtain ⟨g, l⟩ := q
      obtain ⟨habs, hresp⟩ := hq (g, l) (List.mem_cons_self _ _)
      simp only [List.map_cons, List.nodup_cons] at hnd
      have hkey : g ∉ rest.map Prod.fst := hnd.1
      simp only [List.foldl_cons]
      rw [base_step_fetch listing acc g l (.obj (bodies l)) hcr habs hresp]
      have hq2 : ∀ q ∈ rest,
          ({ acc with
              st := acc.st.setBase g (.file (.json (.obj (bodies l)))),
              listingReqs := acc.listingReqs ++ [l] } :
            RunAcc).st.getBase q.1 = .absent ∧
          listing q.2 = .resp 200 (.obj (bodies q.2)) := by
        intro q hq'
        have hne : q.1 ≠ g := by
          intro hh
          exact hkey (hh ▸ List.mem_map_of_mem Prod.fst hq')
        refine ⟨?_, (hq q (List.mem_cons_of_mem _ hq')).2⟩
        simp only [FsState.getBase_setBase_ne _ _ _ _ hne]
        exact (hq q (List.mem_cons_of_mem _ hq')).1
      have hrest := ih
        { acc with
            st := acc.st.setBase g (.file (.json (.obj (bodies l)))),
            listingReqs := acc.listingReqs ++ [l] }
        hcr hnd.2 hq2
      refine ⟨hrest.1, ?_, ?_, by rw [hrest.2.2.2]; rfl⟩
      · intro q hq'
        rcases List.mem_cons.mp hq' with rfl | hmem
        · rw [hrest.2.2.1 (g, l).1 hkey]
          simp
        · exact hrest.2.1 q hmem
      · intro gt hgt
        simp only [List.map_cons, List.mem_cons, not_or] at hgt
        rw [hrest.2.2.1 gt hgt.2]
        simp only [FsState.getBase_setBase_ne _ _ _ _ hgt.1]

/-- Phase 1 over base files that already exist with valid JSON: the whole
pass is the identity on the run accumulator. -/
lemma foldl_base_skip_all (listing : String → NetResult) :
    ∀ (ps : List (String × String)) (acc : RunAcc),
      acc.crash = none →
      (∀ q ∈ ps, ∃ j, acc.st.getBase q.1 = .file (.json j)) →
      ps.foldl (fun a p => download_base_step listing a p.1 p.2) acc =
        acc := by
  intro ps
  induction ps with
  | nil => intro acc _ _; rfl
  | cons q rest ih =>
      intro acc hcr hq
      obtain ⟨g, l⟩ := q
      obtain ⟨j, hj⟩ := hq (g, l) (List.mem_cons_self _ _)
      simp only [List.foldl_cons]
      rw [base_step_skip_json listing acc g l j hcr hj]
      exact ih acc hcr (fun q hq' => hq q (List.mem_cons_of_mem _ hq'))

/-- Phase 2 over absent advanced caches, when every listed identifier
answers 200 with the single-key body: every processed category's record set
becomes the full listing, and base files are untouched. -/
lemma foldl_adv_fetch_all (detail : Json → NetResult)
    (bodies : String → List (String × Json)) (idsOf : String → List String)
    (pl : String → Json)
    (hdet : ∀ x, detail (.str x) = .resp 200 (.obj [(x, pl x)])) :
    ∀ (ps : List (String × String)) (acc : RunAcc),
      acc.crash = none → (ps.map Prod.fst).Nodup →
      (∀ q ∈ ps, acc.st.getAdv q.1 = .absent ∧
        acc.st.getBase q.1 = .file (.json (.obj (bodies q.2))) ∧
        Json.findField (bodies q.2) q.2 =
          some (.arr ((idsOf q.2).map Json.str)) ∧ (idsOf q.2).Nodup) →
      (ps.foldl (fun a p => download_adv_step detail a p.1 p.2)
          acc).crash = none ∧
      (∀ q ∈ ps,
        (ps.foldl (fun a p => download_adv_step detail a p.1 p.2)
          acc).st.getAdv q.1 = .file (.json (.obj
            ((idsOf q.2).map fun x => (x, pl x))))) ∧
      (∀ gt, gt ∉ ps.map Prod.fst →
        (ps.foldl (fun a p => download_adv_step detail a p.1 p.2)
          acc).st.getAdv gt = acc.st.getAdv gt) ∧
      (ps.foldl (fun a p => download_adv_step detail a p.1 p.2)
          acc).st.base = acc.st.base := by
  intro ps
  induction ps with
  | nil => intro acc hcr _ _; exact ⟨hcr, by simp, fun _ _ => rfl, rfl⟩
  | cons q rest ih =>
      intro acc hcr hnd hq
      obtain ⟨g, l⟩ := q
      obtain ⟨hadv, hbase, hf, hidnd⟩ := hq (g, l) (List.mem_cons_self _ _)
      simp only [List.map_cons, List.nodup_cons] at hnd
      have hkey : g ∉ rest.map Prod.fst := hnd.1
      simp only [List.foldl_cons]
      rw [adv_step_fetch_all detail acc g l (idsOf l) (bodies l) pl hcr
        hadv hbase hf hidnd (fun x _ => hdet x)]
      have hq2 : ∀ q ∈ rest,
          ({ acc with
              st := acc.st.setAdv g (.file (.json (.obj
                ((idsOf l).map fun x => (x, pl x))))),
              detailReqs := acc.detailReqs ++ (idsOf l).map Json.str,
              counts := acc.counts ++ [(g, (idsOf l).length)] } :
            RunAcc).st.getAdv q.1 = .absent ∧
          ({ acc with
              st := acc.st.setAdv g (.file (.json (.obj
                ((idsOf l).map fun x => (x, pl x))))),
              detailReqs := acc.detailReqs ++ (idsOf l).map Json.str,
              counts := acc.counts ++ [(g, (idsOf l).length)] } :
            RunAcc).st.getBase q.1 = .file (.json (.obj (bodies q.2))) ∧
          Json.findField (bodies q.2) q.2 =
            some (.arr ((idsOf q.2).map Json.str)) ∧ (idsOf q.2).Nodup := by
        intro q hq'
        have hne : q.1 ≠ g := by
          intro hh
          exact hkey (hh ▸ List.mem_map_of_mem Prod.fst hq')
        obtain ⟨h1, h2, h3, h4⟩ := hq q (List.mem_cons_of_mem _ hq')
        refine ⟨?_, ?_, h3, h4⟩
        · simp only [FsState.getAdv_setAdv_ne _ _ _ _ hne]
          exact h1
        · simp only [FsState.getBase_setAdv]
          exact h2
      have hrest := ih
        { acc with
            st := acc.st.setAdv g (.file (.json (.obj
              ((idsOf l).map fun x => (x, pl x))))),
            detailReqs := acc.detailReqs ++ (idsOf l).map Json.str,
            counts := acc.counts ++ [(g, (idsOf l).length)] }
        hcr hnd.2 hq2
      refine ⟨hrest.1, ?_, ?_, by rw [hrest.2.2.2]; rfl⟩
      · intro q hq'
        rcases List.mem_cons.mp hq' with rfl | hmem
        · rw [hrest.2.2.1 (g, l).1 hkey]
          simp
        · exact hrest.2.1 q hmem
      · intro gt hgt
        simp only [List.map_cons, List.mem_cons, not_or] at hgt
        rw [hrest.2.2.1 gt hgt.2]
        simp only [FsState.getAdv_setAdv_ne _ _ _ _ hgt.1]

/-- Phase 2 when every processed category's record set already covers its
listing: no detail request, zero counts, contents rewritten unchanged. -/
lemma foldl_adv_skip_all (detail : Json → NetResult)
    (bodies : String → List (String × Json)) (idsOf : String → List String)
    (pl : String → Json) :
    ∀ (ps : List (String × String)) (acc : RunAcc),
      acc.crash = none → (ps.map Prod.fst).Nodup →
      (∀ q ∈ ps, acc.st.getAdv q.1 = .file (.json (.obj
          ((idsOf q.2).map fun x => (x, pl x)))) ∧
        acc.st.getBase q.1 = .file (.json (.obj (bodies q.2))) ∧
        Json.findField (bodies q.2) q.2 =
          some (.arr ((idsOf q.2).map Json.str))) →
      (ps.foldl (fun a p => download_adv_step detail a p.1 p.2)
          acc).crash = none ∧
      (ps.foldl (fun a p => download_adv_step detail a p.1 p.2)
          acc).listingReqs = acc.listingReqs ∧
      (ps.foldl (fun a p => download_adv_step detail a p.1 p.2)
          acc).detailReqs = acc.detailReqs ∧
      (ps.foldl (fun a p => download_adv_step detail a p.1 p.2)
          acc).counts = acc.counts ++ ps.map (fun q => (q.1, 0)) ∧
      (∀ q ∈ ps,
        (ps.foldl (fun a p => download_adv_step detail a p.1 p.2)
          acc).st.getAdv q.1 = .file (.json (.obj
            ((idsOf q.2).map fun x => (x, pl x))))) ∧
      (∀ gt, gt ∉ ps.map Prod.fst →
        (ps.foldl (fun a p => download_adv_step detail a p.1 p.2)
          acc).st.getAdv gt = acc.st.getAdv gt) ∧
      (ps.foldl (fun a p => download_adv_step detail a p.1 p.2)
          acc).st.base = acc.st.base := by
  intro ps
  induction ps with
  | nil =>
      intro acc hcr _ _
      exact ⟨hcr, rfl, rfl, by simp, by simp, fun _ _ => rfl, rfl⟩
  | cons q rest ih =>
      intro acc hcr hnd hq
      obtain ⟨g, l⟩ := q
      obtain ⟨hadv, hbase, hf⟩ := hq (g, l) (List.mem_cons_self _ _)
      simp only [List.map_cons, List.nodup_cons] at hnd
      have hkey : g ∉ rest.map Prod.fst := hnd.1
      simp only [List.foldl_cons]
      rw [adv_step_skip_all detail acc g l (idsOf l) (bodies l)
        ((idsOf l).map fun x => (x, pl x)) hcr hadv hbase hf
        (fun x hx => Json.findField_pairs_isSome (idsOf l) pl x hx)]
      have hq2 : ∀ q ∈ rest,
          ({ acc with
              st := acc.st.setAdv g (.file (.json (.obj
                ((idsOf l).map fun x => (x, pl x))))),
              counts := acc.counts ++ [(g, 0)] } :
            RunAcc).st.getAdv q.1 = .file (.json (.obj
              ((idsOf q.2).map fun x => (x, pl x)))) ∧
          ({ acc with
              st := acc.st.setAdv g (.file (.json (.obj
                ((idsOf l).map fun x => (x, pl x))))),
              counts := acc.counts ++ [(g, 0)] } :
            RunAcc).st.getBase q.1 = .file (.json (.obj (bodies q.2))) ∧
          Json.findField (bodies q.2) q.2 =
            some (.arr ((idsOf q.2).map Json.str)) := by
        intro q hq'
        have hne : q.1 ≠ g := by
          intro hh
          exact hkey (hh ▸ List.mem_map_of_mem Prod.fst hq')
        obtain ⟨h1, h2, h3⟩ := hq q (List.mem_cons_of_mem _ hq')
        refine ⟨?_, ?_, h3⟩
        · simp only [FsState.getAdv_setAdv_ne _ _ _ _ hne]
          exact h1
        · simp only [FsState.getBase_setAdv]
          exact h2
      have hrest := ih
        { acc with
            st := acc.st.setAdv g (.file (.json (.obj
              ((idsOf l).map fun x => (x, pl x))))),
            counts := acc.counts ++ [(g, 0)] }
        hcr hnd.2 hq2
      refine ⟨hrest.1, by rw [hrest.2.1], by rw [hrest.2.2.1],
        ?_, ?_, ?_, by rw [hrest.2.2.2.2.2.2]; rfl⟩
      · rw [hrest.2.2.2.1]
        simp
      · intro q hq'
        rcases List.mem_cons.mp hq' with rfl | hmem
        · rw [hrest.2.2.2.2.2.1 (g, l).1 hkey]
          simp
        · exact hrest.2.2.2.2.1 q hmem
      · intro gt hgt
        simp only [List.map_cons, List.mem_cons, not_or] at hgt
        rw [hrest.2.2.2.2.2.1 gt hgt.2]
        simp only [FsState.getAdv_setAdv_ne _ _ _ _ hgt.1]

/-! ## Claim C2 -/

/-- C2 counterexample: a remote state whose only listed identifier always
answers 404.  Both runs complete (a non-200 detail response is non-fatal),
but the second run re-requests the failed identifier: it does not issue
zero detail requests as claimed. -/
theorem C2_counterexample :
    (fullRun
      (fun label => .resp 200 (if label = "Quick Match" then
        .obj [("Quick Match", .arr [.str "r1"])] else .obj []))
      (fun _ => .resp 404 .null) .initial).crash = none ∧
    (fullRun
      (fun label => .resp 200 (if label = "Quick Match" then
        .obj [("Quick Match", .arr [.str "r1"])] else .obj []))
      (fun _ => .resp 404 .null)
      (fullRun
        (fun label => .resp 200 (if label = "Quick Match" then
          .obj [("Quick Match", .arr [.str "r1"])] else .obj []))
        (fun _ => .resp 404 .null) .initial).st).detailReqs =
      [.str "r1"] := by decide

/-- C2 (amended): idempotence holds for remote states in which every
request succeeds — each category's listing answers 200 with an object
mapping the category label to a list of distinct string identifiers, and
every detail request answers 200 with the single-key body — starting from
absent cache files.  Then the first run completes without a crash, and the
second run leaves every base and advanced cache file with contents
identical to those after the first run, issues no listing and no detail
requests, and reports fetched-count 0 for every category.  (If some detail
request fails, the first run still completes but leaves identifiers
unfetched, and a second run re-requests them: see the counterexample.) -/
theorem C2_idempotent (listing : String → NetResult)
    (detail : Json → NetResult)
    (bodies : String → List (String × Json)) (idsOf : String → List String)
    (pl : String → Json)
    (hlist : ∀ q ∈ GAME_TYPES, listing q.2 = .resp 200 (.obj (bodies q.2)))
    (hshape : ∀ q ∈ GAME_TYPES, Json.findField (bodies q.2) q.2 =
      some (.arr ((idsOf q.2).map Json.str)))
    (hnodup : ∀ q ∈ GAME_TYPES, (idsOf q.2).Nodup)
    (hdet : ∀ x, detail (.str x) = .resp 200 (.obj [(x, pl x)])) :
    (fullRun listing detail .initial).crash = none ∧
    (∀ q ∈ GAME_TYPES,
      (fullRun listing detail
        (fullRun listing detail .initial).st).st.getBase q.1 =
        (fullRun listing detail .initial).st.getBase q.1 ∧
      (fullRun listing detail
        (fullRun listing detail .initial).st).st.getAdv q.1 =
        (fullRun listing detail .initial).st.getAdv q.1) ∧
    (fullRun listing detail
      (fullRun listing detail .initial).st).listingReqs = [] ∧
    (fullRun listing detail
      (fullRun listing detail .initial).st).detailReqs = [] ∧
    (fullRun listing detail
      (fullRun listing detail .initial).st).counts =
      [("qm", 0), ("sl", 0), ("ud", 0), ("aram", 0)] ∧
    (fullRun listing detail
      (fullRun listing detail .initial).st).crash = none := by
  simp only [fullRun, download_base_replays, download_advanced_replays]
  set A1 := GAME_TYPES.foldl
    (fun a p => download_base_step listing a p.1 p.2)
    (RunAcc.start .initial) with hA1def
  have hb1 := foldl_base_fetch_all listing bodies GAME_TYPES
    (RunAcc.start .initial) rfl (by decide)
    (fun q hq => ⟨rfl, hlist q hq⟩)
  rw [← hA1def] at hb1
  have hadv1 : ∀ q ∈ GAME_TYPES, A1.st.getAdv q.1 = .absent := by
    intro q hq
    unfold FsState.getAdv
    rw [hb1.2.2.2]
    rfl
  set R1 := GAME_TYPES.foldl
    (fun a p => download_adv_step detail a p.1 p.2) A1 with hR1def
  have ha1 := foldl_adv_fetch_all detail bodies idsOf pl hdet GAME_TYPES
    A1 hb1.1 (by decide)
    (fun q hq => ⟨hadv1 q hq, hb1.2.1 q hq, hshape q hq, hnodup q hq⟩)
  rw [← hR1def] at ha1
  have hbase1 : ∀ q ∈ GAME_TYPES,
      R1.st.getBase q.1 = .file (.json (.obj (bodies q.2))) := by
    intro q hq
    unfold FsState.getBase
    rw [ha1.2.2.2]
    exact hb1.2.1 q hq
  have hskip2 := foldl_base_skip_all listing GAME_TYPES
    (RunAcc.start R1.st) rfl
    (fun q hq => ⟨.obj (bodies q.2), hbase1 q hq⟩)
  have ha2 := foldl_adv_skip_all detail bodies idsOf pl GAME_TYPES
    (RunAcc.start R1.st) rfl (by decide)
    (fun q hq => ⟨ha1.2.1 q hq, hbase1 q hq, hshape q hq⟩)
  rw [hskip2]
  refine ⟨ha1.1, ?_, ?_, ?_, ?_, ha2.1⟩
  · intro q hq
    constructor
    · unfold FsState.getBase
      rw [ha2.2.2.2.2.2.2]
      rfl
    · rw [ha2.2.2.2.2.1 q hq, ha1.2.1 q hq]
  · rw [ha2.2.1]
    rfl
  · rw [ha2.2.2.1]
    rfl
  · rw [ha2.2.2.2.1]
    rfl

theorem C2_idempotent_witness :
    (fullRun (fun label => .resp 200 (.obj [(label, .arr [.str "r1"])]))
      (fun e => match e with
        | .str x => .resp 200 (.obj [(x, .num 7)])
        | _ => .exn) .initial).crash = none ∧
    (fullRun (fun label => .resp 200 (.obj [(label, .arr [.str "r1"])]))
      (fun e => match e with
        | .str x => .resp 200 (.obj [(x, .num 7)])
        | _ => .exn)
      (fullRun (fun label => .resp 200 (.obj [(label, .arr [.str "r1"])]))
        (fun e => match e with
          | .str x => .resp 200 (.obj [(x, .num 7)])
          | _ => .exn) .initial).st).detailReqs = [] ∧
    (fullRun (fun label => .resp 200 (.obj [(label, .arr [.str "r1"])]))
      (fun e => match e with
        | .str x => .resp 200 (.obj [(x, .num 7)])
        | _ => .exn)
      (fullRun (fun label => .resp 200 (.obj [(label, .arr [.str "r1"])]))
        (fun e => match e with
          | .str x => .resp 200 (.obj [(x, .num 7)])
          | _ => .exn) .initial).st).counts =
      [("qm", 0), ("sl", 0), ("ud", 0), ("aram", 0)] :=
  have h := C2_idempotent
    (fun label => .resp 200 (.obj [(label, .arr [.str "r1"])]))
    (fun e => match e with
      | .str x => .resp 200 (.obj [(x, .num 7)])
      | _ => .exn)
    (fun label => [(label, .arr [.str "r1"])]) (fun _ => ["r1"])
    (fun _ => .num 7) (fun q _ => rfl)
    (by intro q hq; fin_cases hq <;> rfl)
    (fun q _ => List.nodup_singleton "r1") (fun x => rfl)
  ⟨h.1, h.2.2.2.1, h.2.2.2.2.1⟩

/-! ## Claim C1 -/

/-- C1 counterexample: the base listing holds two identifiers; the detail
endpoint answers the first request with status 201 — a 2xx — and the second
with 404.  By the claim (k = 1), the advanced cache should afterwards hold
exactly the first record.  The code tests `== 200`, so the 201 hits the
`break` branch: only one request is issued and the persisted record set is
empty — it does not contain the first record. -/
theorem C1_counterexample :
    (download_adv_step
      (fun e => if e = .str "r1" then .resp 201 (.obj [("r1", .null)])
                else .resp 404 .null)
      (RunAcc.start ⟨[("qm", .file (.json (.obj
        [("Quick Match", .arr [.str "r1", .str "r2"])])))], []⟩)
      "qm" "Quick Match").st.getAdv "qm" = .file (.json (.obj [])) ∧
    (download_adv_step
      (fun e => if e = .str "r1" then .resp 201 (.obj [("r1", .null)])
                else .resp 404 .null)
      (RunAcc.start ⟨[("qm", .file (.json (.obj
        [("Quick Match", .arr [.str "r1", .str "r2"])])))], []⟩)
      "qm" "Quick Match").detailReqs = [.str "r1"] ∧
    (download_adv_step
      (fun e => if e = .str "r1" then .resp 201 (.obj [("r1", .null)])
                else .resp 404 .null)
      (RunAcc.start ⟨[("qm", .file (.json (.obj
        [("Quick Match", .arr [.str "r1", .str "r2"])])))], []⟩)
      "qm" "Quick Match").crash = none := by decide

/-- C1 (amended): resume after partial failure, with "2xx" tightened to
"status exactly 200 with the API's single-key body" (the counterexample
shows a 2xx non-200 ends the loop early) and the starting advanced cache
taken absent (the loaded record set must be empty for "exactly the first k
records" to be the outcome).  With identifiers `pre ++ bad :: post` (no
duplicates), successful responses for `pre` (k = |pre|) and a non-200 for
`bad`: the first run persists exactly the `pre` records in listing order
and requests exactly `pre ++ [bad]`; a second run over the same base
listing whose responses all succeed requests exactly `bad :: post` — none
of the first k — and completes the record set in listing order. -/
theorem C1_resume (d1 d2 : Json → NetResult) (st : FsState)
    (gt label : String) (pre post : List String) (bad : String)
    (pl pl2 : String → Json) (bf : List (String × Json)) (s : Nat)
    (b : Json)
    (hnd : (pre ++ bad :: post).Nodup)
    (hbase : st.getBase gt = .file (.json (.obj bf)))
    (hids : Json.findField bf label =
      some (.arr ((pre ++ bad :: post).map Json.str)))
    (hadv : st.getAdv gt = .absent)
    (hd1pre : ∀ x ∈ pre, d1 (.str x) = .resp 200 (.obj [(x, pl x)]))
    (hd1bad : d1 (.str bad) = .resp s b) (hs : s ≠ 200)
    (hd2 : ∀ x ∈ bad :: post,
      d2 (.str x) = .resp 200 (.obj [(x, pl2 x)])) :
    (download_adv_step d1 (RunAcc.start st) gt label).st.getAdv gt =
      .file (.json (.obj (pre.map fun x => (x, pl x)))) ∧
    (download_adv_step d1 (RunAcc.start st) gt label).detailReqs =
      (pre ++ [bad]).map Json.str ∧
    (download_adv_step d1 (RunAcc.start st) gt label).crash = none ∧
    (download_adv_step d2
      (RunAcc.start (download_adv_step d1 (RunAcc.start st) gt label).st)
      gt label).detailReqs = (bad :: post).map Json.str ∧
    (∀ x ∈ pre, Json.str x ∉
      (download_adv_step d2
        (RunAcc.start (download_adv_step d1 (RunAcc.start st) gt label).st)
        gt label).detailReqs) ∧
    (download_adv_step d2
      (RunAcc.start (download_adv_step d1 (RunAcc.start st) gt label).st)
      gt label).st.getAdv gt =
      .file (.json (.obj ((pre.map fun x => (x, pl x)) ++
        (bad :: post).map fun x => (x, pl2 x)))) ∧
    (download_adv_step d2
      (RunAcc.start (download_adv_step d1 (RunAcc.start st) gt label).st)
      gt label).crash = none := by
  have hpre_nd := (List.nodup_append.mp hnd).1
  have hbp_nd := (List.nodup_append.mp hnd).2.1
  have hdisj := (List.nodup_append.mp hnd).2.2
  have hbadpre : bad ∉ pre := fun h => hdisj h (List.mem_cons_self _ _)
  -- run 1: fetch `pre`, break at `bad`
  have hm1 : Json.pyIn (.obj (pre.map fun x => (x, pl x)))
      (Json.str bad) = .ok false := by
    simp [Json.pyIn, Json.hashable,
      Json.findField_pairs_of_not_mem pre pl bad hbadpre]
  have hloop1 : advLoop d1 (.obj []) ((pre ++ bad :: post).map Json.str)
      0 [] = ⟨.obj (pre.map fun x => (x, pl x)), pre.length,
        pre.map Json.str ++ [Json.str bad], none⟩ := by
    rw [List.map_append]
    rw [advLoop_success d1 pl pre [] ((bad :: post).map Json.str) 0 []
      hpre_nd (fun x _ => rfl) hd1pre]
    simp only [List.nil_append, Nat.zero_add, List.map_cons]
    rw [advLoop_break d1 _ (Json.str bad) _ _ _ s b hm1 hd1bad hs]
  have hstep1 : download_adv_step d1 (RunAcc.start st) gt label =
      { RunAcc.start st with
        st := st.setAdv gt (.file (.json (.obj
          (pre.map fun x => (x, pl x))))),
        detailReqs := pre.map Json.str ++ [Json.str bad],
        counts := [(gt, pre.length)] } := by
    rw [adv_step_run d1 (RunAcc.start st) gt label (.obj []) bf
      ((pre ++ bad :: post).map Json.str)
      ⟨.obj (pre.map fun x => (x, pl x)), pre.length,
        pre.map Json.str ++ [Json.str bad], none⟩
      rfl (Or.inl ⟨hadv, rfl⟩) hbase hids hloop1]
    simp [RunAcc.start]
  -- run 2: skip `pre`, fetch `bad :: post`
  have hskipmem : ∀ y ∈ pre.map Json.str,
      Json.pyIn (.obj (pre.map fun x => (x, pl x))) y = .ok true := by
    intro y hy
    obtain ⟨x, hx, rfl⟩ := List.mem_map.mp hy
    simp [Json.pyIn, Json.hashable,
      Json.findField_pairs_isSome pre pl x hx]
  have hfresh2 : ∀ x ∈ bad :: post,
      Json.findField (pre.map fun y => (y, pl y)) x = none :=
    fun x hx =>
      Json.findField_pairs_of_not_mem pre pl x (fun hmem => hdisj hmem hx)
  have hloop2 : advLoop d2 (.obj (pre.map fun x => (x, pl x)))
      ((pre ++ bad :: post).map Json.str) 0 [] =
      ⟨.obj ((pre.map fun x => (x, pl x)) ++
        (bad :: post).map fun x => (x, pl2 x)), (bad :: post).length,
        (bad :: post).map Json.str, none⟩ := by
    rw [List.map_append]
    rw [advLoop_skip d2 _ (pre.map Json.str) _ 0 [] hskipmem]
    rw [← List.append_nil ((bad :: post).map Json.str)]
    rw [advLoop_success d2 pl2 (bad :: post)
      (pre.map fun x => (x, pl x)) [] 0 [] hbp_nd hfresh2 hd2]
    rw [advLoop_nil]
    simp
  have hstep2 : download_adv_step d2
      (RunAcc.start (st.setAdv gt (.file (.json (.obj
        (pre.map fun x => (x, pl x))))))) gt label =
      { RunAcc.start (st.setAdv gt (.file (.json (.obj
          (pre.map fun x => (x, pl x)))))) with
        st := (st.setAdv gt (.file (.json (.obj
          (pre.map fun x => (x, pl x)))))).setAdv gt
            (.file (.json (.obj ((pre.map fun x => (x, pl x)) ++
              (bad :: post).map fun x => (x, pl2 x))))),
        detailReqs := (bad :: post).map Json.str,
        counts := [(gt, (bad :: post).length)] } := by
    rw [adv_step_run d2 _ gt label (.obj (pre.map fun x => (x, pl x))) bf
      ((pre ++ bad :: post).map Json.str)
      ⟨.obj ((pre.map fun x => (x, pl x)) ++
        (bad :: post).map fun x => (x, pl2 x)), (bad :: post).length,
        (bad :: post).map Json.str, none⟩
      rfl (Or.inr (Or.inr (by simp [RunAcc.start])))
      (by simp [RunAcc.start, hbase]) hids hloop2]
    simp [RunAcc.start]
  rw [hstep1]
  simp only [RunAcc.start] at hstep2 ⊢
  rw [hstep2]
  refine ⟨by simp, by simp, by trivial, by simp, ?_, ?_, by trivial⟩
  · intro x hx hmem
    simp only [List.mem_map] at hmem
    obtain ⟨y, hy, heq⟩ := hmem
    cases heq
    exact hdisj hx hy
  · simp [FsState.setAdv_setAdv]

theorem C1_resume_witness :
    (download_adv_step
      (fun e => if e = .str "r1" then .resp 200 (.obj [("r1", .null)])
                else .resp 404 .null)
      (RunAcc.start ⟨[("qm", .file (.json (.obj
        [("Quick Match", .arr [.str "r1", .str "r2"])])))], []⟩)
      "qm" "Quick Match").st.getAdv "qm" =
      .file (.json (.obj [("r1", .null)])) ∧
    (download_adv_step
      (fun e => if e = .str "r1" then .resp 200 (.obj [("r1", .num 2)])
                else if e = .str "r2" then .resp 200 (.obj [("r2", .num 2)])
                else .resp 404 .null)
      (RunAcc.start (download_adv_step
        (fun e => if e = .str "r1" then .resp 200 (.obj [("r1", .null)])
                  else .resp 404 .null)
        (RunAcc.start ⟨[("qm", .file (.json (.obj
          [("Quick Match", .arr [.str "r1", .str "r2"])])))], []⟩)
        "qm" "Quick Match").st)
      "qm" "Quick Match").detailReqs = [.str "r2"] :=
  ⟨(C1_resume
      (fun e => if e = .str "r1" then .resp 200 (.obj [("r1", .null)])
                else .resp 404 .null)
      (fun e => if e = .str "r1" then .resp 200 (.obj [("r1", .num 2)])
                else if e = .str "r2" then .resp 200 (.obj [("r2", .num 2)])
                else .resp 404 .null)
      ⟨[("qm", .file (.json (.obj
        [("Quick Match", .arr [.str "r1", .str "r2"])])))], []⟩
      "qm" "Quick Match" ["r1"] [] "r2" (fun _ => .null) (fun x => .num 2)
      [("Quick Match", .arr [.str "r1", .str "r2"])] 404 .null
      (by decide) rfl rfl rfl (by decide) (by decide) (by decide)
      (by decide)).1,
   (C1_resume
      (fun e => if e = .str "r1" then .resp 200 (.obj [("r1", .null)])
                else .resp 404 .null)
      (fun e => if e = .str "r1" then .resp 200 (.obj [("r1", .num 2)])
                else if e = .str "r2" then .resp 200 (.obj [("r2", .num 2)])
                else .resp 404 .null)
      ⟨[("qm", .file (.json (.obj
        [("Quick Match", .arr [.str "r1", .str "r2"])])))], []⟩
      "qm" "Quick Match" ["r1"] [] "r2" (fun _ => .null) (fun x => .num 2)
      [("Quick Match", .arr [.str "r1", .str "r2"])] 404 .null
      (by decide) rfl rfl rfl (by decide) (by decide) (by decide)
      (by decide)).2.2.2.1⟩

/-- C7: with a global `api_token_path=/a` and a per-identity override block
setting `api_token_path=/b`, the claim says the identity's token is read
from `/b`.  The code's override branch requires `isinstance(tag, list)`,
which is false for the map-form entry, so the override is silently ignored
and the token is read from `/a`: the resolved object carries the token file
contents of `/a` ("tokenA"), not of `/b` ("tokenB"). -/
theorem C7_override_ignored :
    setup_battle_tags_from_config
      (.obj [("general", .obj [("api_token_path", .str "/a")]),
             ("battle_tags", .arr [.obj [("Name#1234",
                .obj [("api_token_path", .str "/b")])]])])
      (fun p => if p = "/a" then some "tokenA"
                else if p = "/b" then some "tokenB" else none) =
    .ok [{ battletag := .obj [("Name#1234",
             .obj [("api_token_path", .str "/b")])],
           api_token := some "tokenA",
           api_token_path := some (.str "/a") }] := rfl

/-- C8 counterexample: a configuration whose `battle_tags` section is
missing entirely resolves successfully (to an empty identity list) instead
of failing fatally at startup. -/
theorem C8_counterexample :
    setup_battle_tags_from_config (.obj [("general", .obj [])])
      (fun _ => none) = .ok [] := rfl

/-- C8 (amended): resolution fails fatally at startup when the `general`
section is missing; a missing `battle_tags` section is tolerated and yields
a successful resolution with an empty identity list. -/
theorem C8_missing_sections :
    (∀ (fields : List (String × Json)) (tokfs : String → Option String),
        Json.findField fields "general" = none →
        setup_battle_tags_from_config (.obj fields) tokfs =
          .error .assertFail) ∧
    (∀ (fields : List (String × Json)) (tokfs : String → Option String)
        (g : Json),
        Json.findField fields "general" = some g →
        Json.findField fields "battle_tags" = none →
        setup_battle_tags_from_config (.obj fields) tokfs = .ok []) := by
  constructor
  · intro fields tokfs h
    simp [setup_battle_tags_from_config, Json.pyIn, Json.hashable, h,
      bind, Except.bind, throw, throwThe, MonadExceptOf.throw]
  · intro fields tokfs g hg hbt
    simp [setup_battle_tags_from_config, Json.pyIn, Json.hashable, hg, hbt,
      bind, Except.bind, tagsToIterate, resolveTags, pure, Except.pure]

theorem C8_missing_sections_witness :
    setup_battle_tags_from_config (.obj []) (fun _ => none) =
      .error .assertFail ∧
    setup_battle_tags_from_config (.obj [("general", .obj [])])
      (fun _ => none) = .ok [] :=
  ⟨C8_missing_sections.1 [] (fun _ => none) rfl,
   C8_missing_sections.2 [("general", .obj [])] (fun _ => none) (.obj [])
     rfl rfl⟩

/-- C9 counterexample: a credential file whose contents are whitespace only
resolves successfully to an identity whose token is the empty string, so
the claimed non-emptiness of the token does not hold. -/
theorem C9_counterexample :
    setup_battle_tags_from_config
      (.obj [("general", .obj [("api_token_path", .str "/a")]),
             ("battle_tags", .arr [.str "Name#1234"])])
      (fun p => if p = "/a" then some " \n" else none) =
    .ok [{ battletag := .str "Name#1234", api_token := some "",
           api_token_path := some (.str "/a") }] := rfl

/-- C9 (amended): every identity produced by a successful resolution pass
carries a credential token equal to the whitespace-trimmed contents of the
file at its resolved credential path; the token may be empty when that file
holds only whitespace. -/
theorem C9_token_trimmed :
    ∀ (cfg : Json) (tokfs : String → Option String)
      (tags : List BattleTagR),
      setup_battle_tags_from_config cfg tokfs = .ok tags →
      ∀ t ∈ tags, ∃ p contents, t.api_token_path = some (.str p) ∧
        tokfs p = some contents ∧ t.api_token = some (pyStrip contents) := by
  intro cfg tokfs tags h t ht
  obtain ⟨x, hx⟩ := setup_ok_mem cfg tokfs tags h t ht
  exact resolve_tag_token cfg tokfs x t hx

theorem C9_token_trimmed_witness :
    ∃ p contents,
      (BattleTagR.mk (.str "Name#1234") (some "tok") (some (.str "/a"))
        none none none none).api_token_path = some (.str p) ∧
      (fun q => if q = "/a" then some " tok \n" else none) p =
        some contents ∧
      (BattleTagR.mk (.str "Name#1234") (some "tok") (some (.str "/a"))
        none none none none).api_token = some (pyStrip contents) :=
  C9_token_trimmed
    (.obj [("general", .obj [("api_token_path", .str "/a")]),
           ("battle_tags", .arr [.str "Name#1234"])])
    (fun q => if q = "/a" then some " tok \n" else none)
    [⟨.str "Name#1234", some "tok", some (.str "/a"), none, none, none, none⟩]
    rfl _ (by simp)


/-! ## Claim C3 — reachability and the key-provenance invariant -/

